import Mathlib

/-!
Verification development for the VPC provisioning service
(`src/lambda/app/vpcops.py`, class `VpcManager`).

The Python module is shallowly embedded here:

* IPv4 networks are pairs (numeric address, prefix length); `ipaddress.ip_network`
  with `strict=False` is `ip_network` below (host bits are masked off).
* `VpcManager._calculate_subnets` is `calculate_subnets`; the `while` loop of
  that method is `findPfxAux` (structural recursion on explicit fuel
  `32 - basePfxLen`, which bounds the number of loop iterations since the
  loop increments `current_prefix` once per iteration and stops at 32).
* Remote AWS calls and DynamoDB writes are modelled by two failure oracles
  (`Nat → Bool`, indexed by the per-kind call counter); every fallible call is
  recorded in a log together with its success bit and the identifier the
  provider would have assigned (the running remote-call counter plays the role
  of the provider-assigned id).
* `VpcManager._rollback_vpc` is `rollback_vpc`, `VpcManager.create_vpc` is
  `create_vpc`, `VpcManager.update_vpc` is `update_vpc`,
  `VpcManager.delete_vpc` is `delete_vpc`.  The Python `try/except` blocks are
  rendered by explicit case analysis on the success bit of each call.
* DynamoDB is a list of items keyed by `vpcId`; `put_item` replaces by key,
  `update_item` with a `SET` expression replaces the tags field (creating a
  stub item when the key is absent, as DynamoDB upserts), `delete_item`
  filters by key.
-/

set_option autoImplicit false

namespace VpcOps

/-- An IPv4 network: numeric 32-bit address and prefix length, as produced by
Python's `ipaddress.ip_network`. -/
structure Ipv4Net where
  addr : Nat
  prefixlen : Nat
  deriving DecidableEq

/-- Number of addresses in the network (`2 ^ (32 - prefixlen)`). -/
def Ipv4Net.size (n : Ipv4Net) : Nat := 2 ^ (32 - n.prefixlen)

/-- A well-formed IPv4 network: prefix at most 32, address in range and aligned
to the block size (host bits zero), as `ipaddress.ip_network` guarantees. -/
def Ipv4Net.Valid (n : Ipv4Net) : Prop :=
  n.prefixlen ≤ 32 ∧ n.addr < 2 ^ 32 ∧ n.addr % n.size = 0

instance (n : Ipv4Net) : Decidable n.Valid := by
  unfold Ipv4Net.Valid; infer_instance

/-- Raw CIDR input before validation: a candidate numeric address and prefix
length.  A malformed CIDR string is one whose numeric components are out of
range (address not a 32-bit value or prefix above 32). -/
structure CidrInput where
  addr : Nat
  prefixlen : Nat
  deriving DecidableEq

/-- Python `ipaddress.ip_network(cidr, strict=False)`: fails (raises
`ValueError`) on out-of-range input, otherwise masks the host bits off the
address. -/
def ip_network (c : CidrInput) : Option Ipv4Net :=
  if c.addr < 2 ^ 32 ∧ c.prefixlen ≤ 32 then
    some ⟨c.addr / 2 ^ (32 - c.prefixlen) * 2 ^ (32 - c.prefixlen), c.prefixlen⟩
  else none

/-- The `while` loop of `VpcManager._calculate_subnets`:
`while max_subnets < count and current_prefix < 32: current_prefix += 1;
max_subnets = 2 ** (current_prefix - network.prefixlen)`.
The fuel argument only bounds the iteration count; the loop increments `cur`
once per iteration and the guard requires `cur < 32`, so fuel `32 - cur` is
exact and the fuel case `0` is only reached when the guard is false. -/
def findPfxAux (basePfxLen : Nat) (count : Int) : Nat → Nat → Nat → Nat × Nat
  | 0, cur, maxSub => (cur, maxSub)
  | fuel + 1, cur, maxSub =>
    if (maxSub : Int) < count ∧ cur < 32 then
      findPfxAux basePfxLen count fuel (cur + 1) (2 ^ (cur + 1 - basePfxLen))
    else (cur, maxSub)

/-- Python slice `l[:count]` for an `int` count: nonnegative counts take a
leading segment, negative counts drop `-count` elements from the end. -/
def pySliceTo {α : Type} (l : List α) (count : Int) : List α :=
  if 0 ≤ count then l.take count.toNat
  else l.take ((l.length : Int) + count).toNat

/-- `network.subnets(new_prefix=p)` for `p ≥ network.prefixlen`: the
`2 ^ (p - prefixlen)` consecutive sub-blocks of the network at prefix `p`, in
ascending address order. -/
def Ipv4Net.subnetsAt (n : Ipv4Net) (p : Nat) : List Ipv4Net :=
  (List.range (2 ^ (p - n.prefixlen))).map
    (fun i => ⟨n.addr + i * 2 ^ (32 - p), p⟩)

/-- `VpcManager._calculate_subnets`, applied to the already-parsed network:
find the smallest prefix whose capacity reaches `count` (stopping at 32),
raise `ValueError` if the capacity is still short, otherwise return the first
`count` subnets at that prefix. -/
def calculate_subnets (network : Ipv4Net) (count : Int) :
    Except String (List Ipv4Net) :=
  let r := findPfxAux network.prefixlen count (32 - network.prefixlen)
    network.prefixlen 1
  if (r.2 : Int) < count then
    Except.error "Cannot create subnets from the given cidr"
  else
    Except.ok (pySliceTo (network.subnetsAt r.1) count)

/-- An AWS-style tag (`{"Key": ..., "Value": ...}`). -/
structure Tag where
  key : String
  value : String
  deriving DecidableEq

/-- Python truthiness of an optional list (`if vpc_tags:`-style tests):
`None` and the empty list are falsy. -/
def truthyList {α : Type} : Option (List α) → Bool
  | none => false
  | some l => !l.isEmpty

/-- The remote (EC2) and store (DynamoDB) calls `VpcManager` issues, with the
arguments the claims care about. -/
inductive Call where
  | createVpc (cidr : Ipv4Net)
  | modifyVpcAttribute (vpcId : Nat)
  | createTags (resource : Nat) (tags : List Tag)
  | createInternetGateway
  | attachInternetGateway (vpcId igwId : Nat)
  | createRouteTable (vpcId : Nat)
  | createRoute (rtId gwId : Nat)
  | createSubnet (vpcId : Nat) (cidr : Ipv4Net)
  | associateRouteTable (subnetId rtId : Nat)
  | deleteSubnet (subnetId : Nat)
  | deleteRouteTable (rtId : Nat)
  | disassociateRouteTable (assocId : Nat)
  | detachInternetGateway (igwId vpcId : Nat)
  | deleteInternetGateway (igwId : Nat)
  | deleteVpc (vpcId : Nat)
  | describeRouteTables (vpcId : Nat)
  | describeInternetGateways (vpcId : Nat)
  | putItem (vpcId : Nat)
  | updateItemTags (vpcId : Nat) (tags : List Tag)
  | deleteItem (vpcId : Nat)
  deriving DecidableEq

/-- Whether a call is a DynamoDB (store) write rather than a remote EC2 call. -/
def Call.isStore : Call → Bool
  | .putItem _ => true
  | .updateItemTags _ _ => true
  | .deleteItem _ => true
  | _ => false

/-- One attempted call: the call, whether it succeeded, and the running
counter value at the time it was issued (for successful creation calls this
counter is the provider-assigned identifier). -/
structure LogEntry where
  call : Call
  ok : Bool
  idx : Nat
  deriving DecidableEq

/-- Execution effects threaded through an operation: the remote-call counter
`rn` (also the source of provider-assigned ids), the store-call counter `sn`,
and the chronological log of attempted calls. -/
structure Eff where
  rn : Nat
  sn : Nat
  log : List LogEntry
  deriving DecidableEq

/-- A failure oracle: which consecutive calls of a given kind succeed. -/
abbrev Oracle := Nat → Bool

/-- Attempt one remote EC2 call: consult the remote oracle at the current
counter, log the attempt, and return the success bit.  The counter value
before the call doubles as the id assigned by a successful creation call. -/
def att (w : Oracle) (e : Eff) (c : Call) : Eff × Bool :=
  (⟨e.rn + 1, e.sn, e.log ++ [⟨c, w e.rn, e.rn⟩]⟩, w e.rn)

/-- Attempt one DynamoDB write, consulting the store oracle. -/
def sAtt (w : Oracle) (e : Eff) (c : Call) : Eff × Bool :=
  (⟨e.rn, e.sn + 1, e.log ++ [⟨c, w e.sn, e.sn⟩]⟩, w e.sn)

/-- The DynamoDB item persisted by `create_vpc` (its keys `VpcId`, `Region`,
`SubnetIds`, `Tags`, `igw`, `RouteTables.Public`, `RouteTables.Private`).
The gateway and route-table fields are optional because the Python locals
they are filled from are `Optional[str]`. -/
structure Item where
  vpcId : Nat
  region : String
  subnetIds : List Nat
  tags : List Tag
  igw : Option Nat
  rtPublic : Option Nat
  rtPrivate : Option Nat
  deriving DecidableEq

/-- The DynamoDB table: a list of items keyed by `vpcId`. -/
abbrev Store := List Item

/-- `table.get_item(Key={"VpcId": id})`. -/
def getItem (s : Store) (vid : Nat) : Option Item :=
  s.find? (fun it => it.vpcId == vid)

/-- `table.put_item(Item=item)`: replaces any item with the same key. -/
def putItemStore (s : Store) (it : Item) : Store :=
  it :: s.filter (fun j => j.vpcId != it.vpcId)

/-- `table.delete_item(Key={"VpcId": id})`. -/
def deleteItemStore (s : Store) (vid : Nat) : Store :=
  s.filter (fun it => it.vpcId != vid)

/-- `table.update_item` with `SET Tags = :val`: replaces the tags field of the
keyed item wholesale; if the key is absent DynamoDB upserts an item holding
only the key and the tags (the remaining fields are modelled empty). -/
def updateTagsStore (s : Store) (vid : Nat) (ts : List Tag) : Store :=
  if (s.find? (fun it => it.vpcId == vid)).isSome then
    s.map (fun it => if it.vpcId == vid then { it with tags := ts } else it)
  else
    ⟨vid, "", [], ts, none, none, none⟩ :: s

/-- The argument tuple `VpcManager._rollback_vpc` is invoked with:
`(vpc_id, igw_id, [rt_public_id, rt_private_id], subnet_ids)` where the first
two and the route-table entries are the `Optional[str]` locals of
`create_vpc`. -/
structure RollbackArgs where
  vpcId : Option Nat
  igwId : Option Nat
  routeTableIds : List (Option Nat)
  subnetIds : List Nat
  deriving DecidableEq

/-- First loop of `_rollback_vpc`: delete each subnet, each in its own
`try/except` (failure logged and swallowed). -/
def rollbackSubnets (w : Oracle) (e : Eff) : List Nat → Eff
  | [] => e
  | sid :: rest => rollbackSubnets w (att w e (Call.deleteSubnet sid)).1 rest

/-- Second loop of `_rollback_vpc`: delete each non-null route table, each in
its own `try/except`. -/
def rollbackRts (w : Oracle) (e : Eff) : List (Option Nat) → Eff
  | [] => e
  | none :: rest => rollbackRts w e rest
  | some rid :: rest => rollbackRts w (att w e (Call.deleteRouteTable rid)).1 rest

/-- `VpcManager._rollback_vpc`: delete subnets, then non-null route tables,
then (when both the gateway and the VPC id are present) detach and delete the
gateway inside one `try/except` — so the gateway delete is attempted only when
the detach succeeded — then delete the VPC.  Every block swallows its own
failure; the function is total (it never raises to its caller) and issues no
store calls. -/
def rollback_vpc (w : Oracle) (e : Eff) (a : RollbackArgs) : Eff :=
  let e1 := rollbackSubnets w e a.subnetIds
  let e2 := rollbackRts w e1 a.routeTableIds
  let e3 :=
    match a.igwId, a.vpcId with
    | some g, some v =>
      let r := att w e2 (Call.detachInternetGateway g v)
      if r.2 then (att w r.1 (Call.deleteInternetGateway g)).1 else r.1
    | _, _ => e2
  match a.vpcId with
  | some v => (att w e3 (Call.deleteVpc v)).1
  | none => e3

/-- `public_count = min(public_subnet_count if public_subnet_count is not None
else subnet_count // 2, subnet_count)` (Python `//` is floor division). -/
def effectivePublicCount (publicSubnetCount : Option Int) (subnetCount : Int) :
    Int :=
  min (publicSubnetCount.getD (Int.fdiv subnetCount 2)) subnetCount

/-- The tag applied to the subnet at index `idx`:
`subnet_tags[idx] if subnet_tags and idx < len(subnet_tags) else
{"Key": "Name", "Value": f"Subnet-(idx+1)"}`. -/
def subnetTagFor (subnetTags : Option (List Tag)) (idx : Nat) : Tag :=
  match subnetTags with
  | some l =>
    if h : idx < l.length then l.get ⟨idx, h⟩
    else ⟨"Name", "Subnet-" ++ toString (idx + 1)⟩
  | none => ⟨"Name", "Subnet-" ++ toString (idx + 1)⟩

/-- Result of a `create_vpc` run: the returned record (`none` models the
Python `return None` taken on any caught exception), the resulting store, the
effect log, and the arguments the rollback executor was invoked with (if it
was). -/
structure CreateOutcome where
  result : Option Item
  store : Store
  eff : Eff
  rollback : Option RollbackArgs
  deriving DecidableEq

/-- The `except` handler of `create_vpc`: log and swallow the exception, run
`_rollback_vpc` with the current values of the locals, return `None`.  No
store write happens on this path. -/
def failOut (w : Oracle) (store : Store) (e : Eff) (vpcId igwId rtPub rtPriv :
    Option Nat) (subnetIds : List Nat) : CreateOutcome :=
  let a : RollbackArgs := ⟨vpcId, igwId, [rtPub, rtPriv], subnetIds⟩
  ⟨none, store, rollback_vpc w e a, some a⟩

/-- The per-subnet loop of `create_vpc`: for each calculated CIDR, create the
subnet (appending its id to `subnet_ids` on success), tag it, and associate it
with the public route table when `idx < public_count`, else the private one.
On the first failed call the accumulated subnet ids (including a subnet whose
creation succeeded but whose tagging or association failed) are surrendered to
the exception handler. -/
def subnetLoop (w : Oracle) (vpcId rtPub rtPriv : Nat) (publicCount : Int)
    (subnetTags : Option (List Tag)) :
    Eff → List Ipv4Net → Nat → List Nat → Eff × Except (List Nat) (List Nat)
  | e, [], _, acc => (e, Except.ok acc)
  | e, cidr :: rest, idx, acc =>
    let sid := e.rn
    let r1 := att w e (Call.createSubnet vpcId cidr)
    if r1.2 then
      let acc' := acc ++ [sid]
      let r2 := att w r1.1 (Call.createTags sid [subnetTagFor subnetTags idx])
      if r2.2 then
        let rt := if (idx : Int) < publicCount then rtPub else rtPriv
        let r3 := att w r2.1 (Call.associateRouteTable sid rt)
        if r3.2 then
          subnetLoop w vpcId rtPub rtPriv publicCount subnetTags r3.1 rest
            (idx + 1) acc'
        else (r3.1, Except.error acc')
      else (r2.1, Except.error acc')
    else (r1.1, Except.error acc)

/-- The steps of `VpcManager.create_vpc` from gateway creation onward
(source lines 179–223), factored out so the two arms of the optional
VPC-tagging step share one continuation: create and attach the internet
gateway, create and tag the two route tables, add the default route to the
public one, resolve the public count, invoke the partitioner, run the
per-subnet loop, assemble the item and persist it.  Every failure arm is the
shared `except` handler applied to the locals as set at that point. -/
def create_vpc_tail (wr ws : Oracle) (store : Store) (region : String)
    (network : Ipv4Net) (subnetCount : Int) (publicSubnetCount : Option Int)
    (vpcTags subnetTags : Option (List Tag)) (vpcId : Nat) (e : Eff) :
    CreateOutcome :=
  let igwId := e.rn
  let r4 := att wr e Call.createInternetGateway
  if !r4.2 then failOut wr store r4.1 (some vpcId) none none none [] else
  let r5 := att wr r4.1 (Call.attachInternetGateway vpcId igwId)
  if !r5.2 then
    failOut wr store r5.1 (some vpcId) (some igwId) none none [] else
  let rtPub := r5.1.rn
  let r6 := att wr r5.1 (Call.createRouteTable vpcId)
  if !r6.2 then
    failOut wr store r6.1 (some vpcId) (some igwId) none none [] else
  let r7 := att wr r6.1 (Call.createTags rtPub [⟨"Name", "Public-RT"⟩])
  if !r7.2 then
    failOut wr store r7.1 (some vpcId) (some igwId) (some rtPub) none [] else
  let r8 := att wr r7.1 (Call.createRoute rtPub igwId)
  if !r8.2 then
    failOut wr store r8.1 (some vpcId) (some igwId) (some rtPub) none [] else
  let rtPriv := r8.1.rn
  let r9 := att wr r8.1 (Call.createRouteTable vpcId)
  if !r9.2 then
    failOut wr store r9.1 (some vpcId) (some igwId) (some rtPub) none [] else
  let r10 := att wr r9.1 (Call.createTags rtPriv [⟨"Name", "Private-RT"⟩])
  if !r10.2 then
    failOut wr store r10.1 (some vpcId) (some igwId) (some rtPub)
      (some rtPriv) [] else
  let publicCount := effectivePublicCount publicSubnetCount subnetCount
  match calculate_subnets network subnetCount with
  | Except.error _ =>
    failOut wr store r10.1 (some vpcId) (some igwId) (some rtPub)
      (some rtPriv) []
  | Except.ok subnetCidrs =>
    match subnetLoop wr vpcId rtPub rtPriv publicCount subnetTags r10.1
        subnetCidrs 0 [] with
    | (e11, Except.error sids) =>
      failOut wr store e11 (some vpcId) (some igwId) (some rtPub)
        (some rtPriv) sids
    | (e11, Except.ok sids) =>
      let item : Item :=
        ⟨vpcId, region, sids, vpcTags.getD [], some igwId, some rtPub,
          some rtPriv⟩
      let r12 := sAtt ws e11 (Call.putItem vpcId)
      if !r12.2 then
        failOut wr store r12.1 (some vpcId) (some igwId) (some rtPub)
          (some rtPriv) sids
      else ⟨some item, putItemStore store item, r12.1, none⟩

/-- `VpcManager.create_vpc`.  The Python body is one `try` block; every
fallible call is followed by a case split on its success bit, the failure arm
being the shared `except` handler (`failOut`) applied to the locals as set at
that point.  The returned record is the item passed to `put_item` (the Python
code returns `_normalize_vpc_record(item)`, a pure key-renaming of the same
data). -/
def create_vpc (wr ws : Oracle) (store : Store) (region : String)
    (vpcCidr : CidrInput) (subnetCount : Int) (publicSubnetCount : Option Int)
    (vpcTags subnetTags : Option (List Tag)) : CreateOutcome :=
  let e0 : Eff := ⟨0, 0, []⟩
  match ip_network vpcCidr with
  | none => failOut wr store e0 none none none none []
  | some network =>
    let vpcId := e0.rn
    let r1 := att wr e0 (Call.createVpc network)
    if !r1.2 then failOut wr store r1.1 none none none none [] else
    let r2 := att wr r1.1 (Call.modifyVpcAttribute vpcId)
    if !r2.2 then failOut wr store r2.1 (some vpcId) none none none [] else
    let r3 :=
      if truthyList vpcTags then
        att wr r2.1 (Call.createTags vpcId (vpcTags.getD []))
      else (r2.1, true)
    if !r3.2 then failOut wr store r3.1 (some vpcId) none none none [] else
    create_vpc_tail wr ws store region network subnetCount publicSubnetCount
      vpcTags subnetTags vpcId r3.1

/-- Result of an `update_vpc` run: `result = none` models the method raising
out of its `except` handler (the handler re-raises; the API layer surfaces
this to the caller as a 500 internal error), `result = some (id, tags)` is the
Python return value `{"vpc_id": vpc_id, "updated_tags": tags}`. -/
structure UpdateOutcome where
  result : Option (Nat × Option (List Tag))
  store : Store
  eff : Eff
  deriving DecidableEq

/-- `VpcManager.update_vpc`: when `tags` is truthy, apply them to the remote
resource (`create_tags`) and replace the stored record's tags wholesale
(`update_item` with `SET Tags = :val`); if either call raises, the `except`
handler raises in turn, so the caller sees a failure.  When `tags` is `None`
or empty, nothing is called and `{"vpc_id": ..., "updated_tags": tags}` is
returned unchanged. -/
def update_vpc (wr ws : Oracle) (store : Store) (vpcId : Nat)
    (tags : Option (List Tag)) : UpdateOutcome :=
  let e0 : Eff := ⟨0, 0, []⟩
  if truthyList tags then
    let ts := tags.getD []
    let r1 := att wr e0 (Call.createTags vpcId ts)
    if !r1.2 then ⟨none, store, r1.1⟩
    else
      let r2 := sAtt ws r1.1 (Call.updateItemTags vpcId ts)
      if !r2.2 then ⟨none, store, r2.1⟩
      else ⟨some (vpcId, tags), updateTagsStore store vpcId ts, r2.1⟩
  else ⟨some (vpcId, tags), store, e0⟩

/-- One route-table association as returned by `describe_route_tables`:
whether it is the main association, and its association id. -/
structure Assoc where
  main : Bool
  assocId : Nat
  deriving DecidableEq

/-- One route table as returned by `describe_route_tables`. -/
structure RtInfo where
  rtId : Nat
  assocs : List Assoc
  deriving DecidableEq

/-- The remote side's answers to the describe calls `delete_vpc` issues: the
route tables attached to a VPC and the internet gateways attached to it. -/
structure World where
  rtsOf : Nat → List RtInfo
  igwsOf : Nat → List Nat

/-- First loop of `delete_vpc`: delete every subnet of the record, each in its
own `try/except`. -/
def delSubnetsSeq (w : Oracle) (e : Eff) : List Nat → Eff
  | [] => e
  | sid :: rest => delSubnetsSeq w (att w e (Call.deleteSubnet sid)).1 rest

/-- Inner loop of the route-table block of `delete_vpc`: disassociate every
non-main association, each in its own `try/except`. -/
def disassocSeq (w : Oracle) (e : Eff) : List Assoc → Eff
  | [] => e
  | a :: rest =>
    if !a.main then
      disassocSeq w (att w e (Call.disassociateRouteTable a.assocId)).1 rest
    else disassocSeq w e rest

/-- Route-table block of `delete_vpc`: for each described route table,
disassociate its non-main associations, then delete it only when none of its
associations is the main one; each call swallows its own failure. -/
def rtCleanup (w : Oracle) (e : Eff) : List RtInfo → Eff
  | [] => e
  | rt :: rest =>
    let e1 := disassocSeq w e rt.assocs
    let e2 :=
      if !(rt.assocs.any (fun a => a.main)) then
        (att w e1 (Call.deleteRouteTable rt.rtId)).1
      else e1
    rtCleanup w e2 rest

/-- Gateway block of `delete_vpc`: for each described gateway, detach it and
delete it, each of the two calls in its own `try/except` (so the delete is
attempted even when the detach failed). -/
def igwCleanup (w : Oracle) (vpcId : Nat) (e : Eff) : List Nat → Eff
  | [] => e
  | g :: rest =>
    let e1 := (att w e (Call.detachInternetGateway g vpcId)).1
    let e2 := (att w e1 (Call.deleteInternetGateway g)).1
    igwCleanup w vpcId e2 rest

/-- Result of a `delete_vpc` run: `none` models the `return None` taken when
no record exists (the API layer maps it to a 404), `some message` the success
confirmation. -/
structure DeleteOutcome where
  result : Option String
  store : Store
  eff : Eff
  deriving DecidableEq

/-- `VpcManager.delete_vpc`: fetch the record (pure store read; absence is the
only hard failure), then best-effort delete the record's subnets, the
described route tables (disassociating non-main associations, never deleting a
table that has a main association), the described gateways, and the VPC; the
two describe calls are each wrapped in an outer `try/except` that skips the
whole block on failure; finally remove the record (in its own `try/except`)
and return the confirmation message unconditionally. -/
def delete_vpc (wr ws : Oracle) (world : World) (store : Store) (vpcId : Nat) :
    DeleteOutcome :=
  let e0 : Eff := ⟨0, 0, []⟩
  match getItem store vpcId with
  | none => ⟨none, store, e0⟩
  | some record =>
    let e1 := delSubnetsSeq wr e0 record.subnetIds
    let r2 := att wr e1 (Call.describeRouteTables vpcId)
    let e3 := if r2.2 then rtCleanup wr r2.1 (world.rtsOf vpcId) else r2.1
    let r4 := att wr e3 (Call.describeInternetGateways vpcId)
    let e5 := if r4.2 then igwCleanup wr vpcId r4.1 (world.igwsOf vpcId)
      else r4.1
    let e6 := (att wr e5 (Call.deleteVpc vpcId)).1
    let r7 := sAtt ws e6 (Call.deleteItem vpcId)
    let store' := if r7.2 then deleteItemStore store vpcId else store
    ⟨some "VPC deleted successfully", store', r7.1⟩

/-- Recognizer for the VPC-creation call. -/
def isCreateVpcCall : Call → Bool
  | .createVpc _ => true
  | _ => false

/-- Recognizer for the gateway-creation call. -/
def isCreateIgwCall : Call → Bool
  | .createInternetGateway => true
  | _ => false

/-- Recognizer for the route-table-creation call. -/
def isCreateRtCall : Call → Bool
  | .createRouteTable _ => true
  | _ => false

/-- Recognizer for the subnet-creation call. -/
def isCreateSubnetCall : Call → Bool
  | .createSubnet _ _ => true
  | _ => false

/-- Recognizer for the calls the rollback executor is allowed to issue:
remote deletion and detach calls only. -/
def rollbackSafe : Call → Bool
  | .deleteSubnet _ => true
  | .deleteRouteTable _ => true
  | .detachInternetGateway _ _ => true
  | .deleteInternetGateway _ => true
  | .deleteVpc _ => true
  | _ => false

/-- The identifier assigned by the first successful call matching `p`, read
off the log. -/
def allocFirst (p : Call → Bool) (log : List LogEntry) : Option Nat :=
  (log.find? (fun l => p l.call && l.ok)).map LogEntry.idx

/-- The identifiers assigned by all successful calls matching `p`, in log
order. -/
def allocList (p : Call → Bool) (log : List LogEntry) : List Nat :=
  log.filterMap (fun l => if p l.call && l.ok then some l.idx else none)

/-- The route-table ids, in order, that the association calls in a log bound
subnets to. -/
def assocRts (log : List LogEntry) : List Nat :=
  log.filterMap (fun l =>
    match l.call with
    | .associateRouteTable _ rt => some rt
    | _ => none)

/-- The sub-block (range-inclusion) relation on IPv4 networks: every address
of `a` is an address of `b`. -/
def subBlock (a b : Ipv4Net) : Prop :=
  b.addr ≤ a.addr ∧ a.addr + a.size ≤ b.addr + b.size

instance (a b : Ipv4Net) : Decidable (subBlock a b) := by
  unfold subBlock; infer_instance

/-- Strict sub-block: range inclusion together with a strictly smaller block
(for nonempty blocks this is exactly proper inclusion of the address ranges). -/
def strictSubBlock (a b : Ipv4Net) : Prop :=
  subBlock a b ∧ a.size < b.size

instance (a b : Ipv4Net) : Decidable (strictSubBlock a b) := by
  unfold strictSubBlock; infer_instance

/-- Two IPv4 blocks with disjoint address ranges. -/
def disjointBlocks (a b : Ipv4Net) : Prop :=
  a.addr + a.size ≤ b.addr ∨ b.addr + b.size ≤ a.addr

instance (a b : Ipv4Net) : Decidable (disjointBlocks a b) := by
  unfold disjointBlocks; infer_instance

/-- `p` is the minimal prefix length at or below which the base network can be
split into at least `count` uniform blocks: `p` is at least the base prefix,
its capacity reaches `count`, and no shorter prefix's capacity does. -/
def IsMinimalPfxLen (basePfxLen : Nat) (count : Int) (p : Nat) : Prop :=
  basePfxLen ≤ p ∧ count ≤ ((2 ^ (p - basePfxLen) : Nat) : Int) ∧
    ∀ q, basePfxLen ≤ q → count ≤ ((2 ^ (q - basePfxLen) : Nat) : Int) → p ≤ q

/-- The list of non-null route-table ids of a rollback argument tuple, in
order. -/
def rtIdsOf (a : RollbackArgs) : List Nat :=
  a.routeTableIds.filterMap id

/-- The call sequence the Rollback Executor issues, as the specification
describes it: each subnet delete, then each non-null route-table delete, then
— only when both the gateway and the VPC id are present — the gateway step
(detach, then delete when the detach succeeded; the oracle position of the
detach is the start counter plus the number of preceding deletes), then the
VPC delete when the VPC id is present. -/
def rollbackExpectedCalls (w : Oracle) (startIdx : Nat) (a : RollbackArgs) :
    List Call :=
  a.subnetIds.map Call.deleteSubnet
    ++ (rtIdsOf a).map Call.deleteRouteTable
    ++ (match a.igwId, a.vpcId with
        | some g, some v =>
          Call.detachInternetGateway g v ::
            (if w (startIdx + a.subnetIds.length + (rtIdsOf a).length) then
              [Call.deleteInternetGateway g]
            else [])
        | _, _ => [])
    ++ (match a.vpcId with
        | some v => [Call.deleteVpc v]
        | none => [])

/-- The call sequence the route-table block of `delete_vpc` issues for a list
of described route tables: for each table, one disassociation per non-main
association, then the table's delete only when it has no main association. -/
def rtCleanupCalls : List RtInfo → List Call
  | [] => []
  | rt :: rest =>
    (rt.assocs.filter (fun a => !a.main)).map
      (fun a => Call.disassociateRouteTable a.assocId)
    ++ (if rt.assocs.any (fun a => a.main) then []
        else [Call.deleteRouteTable rt.rtId])
    ++ rtCleanupCalls rest

/-- The call sequence the gateway block of `delete_vpc` issues: a detach and a
delete per described gateway, the delete attempted regardless of the detach. -/
def igwCleanupCalls (vpcId : Nat) : List Nat → List Call
  | [] => []
  | g :: rest =>
    Call.detachInternetGateway g vpcId :: Call.deleteInternetGateway g ::
      igwCleanupCalls vpcId rest

/-- A concrete teardown scenario: the stored record for VPC 1. -/
def tdRecord : Item := ⟨1, "r", [10], [], some 2, some 3, some 4⟩

/-- A concrete teardown scenario: a one-record store. -/
def tdStore : Store := [tdRecord]

/-- A concrete teardown scenario: the remote side describes two route tables
for VPC 1 — table 3 carrying the main association, table 4 a non-main one —
and one attached gateway. -/
def tdWorld : World :=
  ⟨fun _ => [⟨3, [⟨true, 100⟩]⟩, ⟨4, [⟨false, 101⟩]⟩], fun _ => [2]⟩

/-- A concrete update scenario: the stored record for VPC 7. -/
def upItem : Item := ⟨7, "r", [], [], none, none, none⟩

/-- A concrete update scenario: a one-record store. -/
def upStore : Store := [upItem]

/-! ### Partitioner lemmas -/

/-- Invariant of the `while` loop of `_calculate_subnets`: starting from a
state where `maxSub` is the capacity at the current prefix and every shorter
prefix's capacity is below `count`, the loop ends with the capacity of the
final prefix, having visited no prefix whose capacity reaches `count`, and it
only ends short of `count` at prefix 32. -/
theorem findPfxAux_spec (base : Nat) (count : Int) :
    ∀ (fuel cur maxSub : Nat), 32 - cur ≤ fuel → base ≤ cur → cur ≤ 32 →
      maxSub = 2 ^ (cur - base) →
      (∀ q, base ≤ q → q < cur → ((2 ^ (q - base) : Nat) : Int) < count) →
      ((findPfxAux base count fuel cur maxSub).2 =
          2 ^ ((findPfxAux base count fuel cur maxSub).1 - base) ∧
        base ≤ (findPfxAux base count fuel cur maxSub).1 ∧
        (findPfxAux base count fuel cur maxSub).1 ≤ 32 ∧
        (∀ q, base ≤ q → q < (findPfxAux base count fuel cur maxSub).1 →
          ((2 ^ (q - base) : Nat) : Int) < count) ∧
        (((findPfxAux base count fuel cur maxSub).2 : Int) < count →
          (findPfxAux base count fuel cur maxSub).1 = 32)) := by
  intro fuel
  induction fuel with
  | zero =>
    intro cur maxSub hfuel hbc hc32 hms hinv
    have hcur : cur = 32 := by omega
    subst hcur
    exact ⟨hms, hbc, le_refl _, hinv, fun _ => rfl⟩
  | succ fuel ih =>
    intro cur maxSub hfuel hbc hc32 hms hinv
    simp only [findPfxAux]
    split
    · next h =>
      refine ih (cur + 1) _ (by omega) (by omega) (by omega) rfl ?_
      intro q hq1 hq2
      rcases Nat.lt_succ_iff_lt_or_eq.mp hq2 with h' | h'
      · exact hinv q hq1 h'
      · subst h'
        exact hms ▸ h.1
    · next h =>
      refine ⟨hms, hbc, hc32, hinv, ?_⟩
      intro hlt
      have hnc : ¬ cur < 32 := fun hcur => h ⟨hlt, hcur⟩
      omega

/-- When the requested count is within the capacity of the base network, the
partitioner succeeds, its prefix is the minimal adequate one, and its output
is the first `count` blocks at that prefix in ascending address order. -/
theorem calculate_subnets_ok_spec (net : Ipv4Net) (count : Int)
    (h32 : net.prefixlen ≤ 32)
    (hcap : count ≤ ((2 ^ (32 - net.prefixlen) : Nat) : Int)) :
    ∃ p, IsMinimalPfxLen net.prefixlen count p ∧ p ≤ 32 ∧
      calculate_subnets net count =
        Except.ok ((List.range count.toNat).map
          (fun i => ⟨net.addr + i * 2 ^ (32 - p), p⟩)) := by
  obtain ⟨h1, h2, h3, h4, h5⟩ :=
    findPfxAux_spec net.prefixlen count (32 - net.prefixlen) net.prefixlen 1
      (le_refl _) (le_refl _) h32 (by simp) (by omega)
  set r := findPfxAux net.prefixlen count (32 - net.prefixlen) net.prefixlen 1
    with hr
  have hok : ¬ ((r.2 : Nat) : Int) < count := by
    intro hlt
    have h32' := h5 hlt
    rw [h1, h32'] at hlt
    omega
  refine ⟨r.1, ⟨h2, by rw [← h1]; omega, ?_⟩, h3, ?_⟩
  · intro q hq1 hq2
    by_contra hq
    exact absurd (h4 q hq1 (by omega)) (by omega)
  · unfold calculate_subnets
    rw [← hr, if_neg hok]
    congr 1
    rcases le_or_lt 0 count with hc | hc
    · have hlen : count.toNat ≤ 2 ^ (r.1 - net.prefixlen) := by
        rw [← h1]; omega
      simp only [pySliceTo, if_pos hc, Ipv4Net.subnetsAt]
      rw [← List.map_take, List.take_range, Nat.min_eq_left hlen]
    · have hp : r.1 = net.prefixlen := by
        by_contra hne
        have hb : net.prefixlen < r.1 := by omega
        have := h4 net.prefixlen (le_refl _) hb
        simp at this
        omega
      have hc0 : count.toNat = 0 := by omega
      rw [hc0]
      simp only [List.range_zero, List.map_nil]
      have hlen : (Ipv4Net.subnetsAt net r.1).length = 1 := by
        simp [Ipv4Net.subnetsAt, hp]
      unfold pySliceTo
      rw [if_neg (by omega : ¬ (0 : Int) ≤ count), hlen,
        Int.toNat_of_nonpos (by omega)]
      simp

/-- When the requested count exceeds even the capacity at prefix 32, the
partitioner raises (`ValueError`, the spec's `CapacityError`) and returns no
blocks. -/
theorem calculate_subnets_error (net : Ipv4Net) (count : Int)
    (h32 : net.prefixlen ≤ 32)
    (hcap : ((2 ^ (32 - net.prefixlen) : Nat) : Int) < count) :
    ∃ msg, calculate_subnets net count = Except.error msg := by
  obtain ⟨h1, h2, h3, h4, h5⟩ :=
    findPfxAux_spec net.prefixlen count (32 - net.prefixlen) net.prefixlen 1
      (le_refl _) (le_refl _) h32 (by simp) (by omega)
  set r := findPfxAux net.prefixlen count (32 - net.prefixlen) net.prefixlen 1
    with hr
  have hlt : ((r.2 : Nat) : Int) < count := by
    have hmono : (2 : Nat) ^ (r.1 - net.prefixlen) ≤
        2 ^ (32 - net.prefixlen) :=
      Nat.pow_le_pow_right (by norm_num) (by omega)
    rw [h1]
    exact lt_of_le_of_lt (by exact_mod_cast hmono) hcap
  refine ⟨"Cannot create subnets from the given cidr", ?_⟩
  unfold calculate_subnets
  rw [← hr, if_pos hlt]

/-- C2 (counterexample): the claim requires every returned block to be a
strict sub-block of the base network for every `1 ≤ count`; at `count = 1`
the partitioner returns the base network `10.0.0.0/20` itself, which is not a
strict sub-block of itself. -/
theorem partitioner_correct_cex :
    calculate_subnets ⟨167772160, 20⟩ 1 = Except.ok [⟨167772160, 20⟩] ∧
      ¬ strictSubBlock ⟨167772160, 20⟩ ⟨167772160, 20⟩ :=
  ⟨rfl, by decide⟩

/-- C2 (amended): for every valid base network and `1 ≤ count ≤ 2^(32-p₀)`,
the partitioner returns exactly `count` pairwise-disjoint blocks, each a
sub-block of the base network — strict whenever `count ≥ 2`; at `count = 1`
the single block is the base network itself — in ascending numeric address
order, all at the minimal prefix `p ≥ p₀` with `2^(p-p₀) ≥ count`. -/
theorem partitioner_correct_amended (net : Ipv4Net) (count : Int)
    (hv : net.Valid) (h1 : 1 ≤ count)
    (h2 : count ≤ ((2 ^ (32 - net.prefixlen) : Nat) : Int)) :
    ∃ p l, IsMinimalPfxLen net.prefixlen count p ∧
      calculate_subnets net count = Except.ok l ∧
      l.length = count.toNat ∧
      (∀ b ∈ l, b.prefixlen = p) ∧
      l.Pairwise (fun a b => a.addr < b.addr) ∧
      l.Pairwise disjointBlocks ∧
      (∀ b ∈ l, subBlock b net) ∧
      (2 ≤ count → ∀ b ∈ l, strictSubBlock b net) := by
  obtain ⟨p, hmin, hp32, hcalc⟩ := calculate_subnets_ok_spec net count hv.1 h2
  have hbp : net.prefixlen ≤ p := hmin.1
  have hcapp : count ≤ ((2 ^ (p - net.prefixlen) : Nat) : Int) := hmin.2.1
  have hszpos : 0 < 2 ^ (32 - p) := Nat.pow_pos (by norm_num)
  have hcount : count.toNat ≤ 2 ^ (p - net.prefixlen) := by omega
  have hsplit : 2 ^ (p - net.prefixlen) * 2 ^ (32 - p) =
      2 ^ (32 - net.prefixlen) := by
    rw [← pow_add]
    congr 1
    omega
  refine ⟨p, _, hmin, hcalc, ?_, ?_, ?_, ?_, ?_, ?_⟩
  · simp
  · intro b hb
    simp only [List.mem_map, List.mem_range] at hb
    obtain ⟨i, _, hi⟩ := hb
    rw [← hi]
  · refine List.Pairwise.map _ ?_ (List.pairwise_lt_range count.toNat)
    intro i j hij
    exact Nat.add_lt_add_left ((Nat.mul_lt_mul_right hszpos).mpr hij) _
  · refine List.Pairwise.map _ ?_ (List.pairwise_lt_range count.toNat)
    intro i j hij
    left
    show net.addr + i * 2 ^ (32 - p) + 2 ^ (32 - p) ≤
      net.addr + j * 2 ^ (32 - p)
    have : (i + 1) * 2 ^ (32 - p) ≤ j * 2 ^ (32 - p) :=
      Nat.mul_le_mul_right _ (by omega)
    calc net.addr + i * 2 ^ (32 - p) + 2 ^ (32 - p)
        = net.addr + (i + 1) * 2 ^ (32 - p) := by ring
      _ ≤ net.addr + j * 2 ^ (32 - p) := Nat.add_le_add_left this _
  · intro b hb
    simp only [List.mem_map, List.mem_range] at hb
    obtain ⟨i, hi, hb⟩ := hb
    subst hb
    refine ⟨Nat.le_add_right _ _, ?_⟩
    show net.addr + i * 2 ^ (32 - p) + 2 ^ (32 - p) ≤
      net.addr + 2 ^ (32 - net.prefixlen)
    have hstep : (i + 1) * 2 ^ (32 - p) ≤
        2 ^ (p - net.prefixlen) * 2 ^ (32 - p) :=
      Nat.mul_le_mul_right _ (by omega)
    calc net.addr + i * 2 ^ (32 - p) + 2 ^ (32 - p)
        = net.addr + (i + 1) * 2 ^ (32 - p) := by ring
      _ ≤ net.addr + 2 ^ (p - net.prefixlen) * 2 ^ (32 - p) :=
          Nat.add_le_add_left hstep _
      _ = net.addr + 2 ^ (32 - net.prefixlen) := by rw [hsplit]
  · intro hcnt b hb
    simp only [List.mem_map, List.mem_range] at hb
    obtain ⟨i, hi, hb⟩ := hb
    have hlt : net.prefixlen < p := by
      rcases Nat.lt_or_ge net.prefixlen p with h | h
      · exact h
      · exfalso
        have hpe : p = net.prefixlen := by omega
        rw [hpe] at hcapp
        simp at hcapp
        omega
    constructor
    · subst hb
      refine ⟨Nat.le_add_right _ _, ?_⟩
      show net.addr + i * 2 ^ (32 - p) + 2 ^ (32 - p) ≤
        net.addr + 2 ^ (32 - net.prefixlen)
      have hstep : (i + 1) * 2 ^ (32 - p) ≤
          2 ^ (p - net.prefixlen) * 2 ^ (32 - p) :=
        Nat.mul_le_mul_right _ (by omega)
      calc net.addr + i * 2 ^ (32 - p) + 2 ^ (32 - p)
          = net.addr + (i + 1) * 2 ^ (32 - p) := by ring
        _ ≤ net.addr + 2 ^ (p - net.prefixlen) * 2 ^ (32 - p) :=
            Nat.add_le_add_left hstep _
        _ = net.addr + 2 ^ (32 - net.prefixlen) := by rw [hsplit]
    · subst hb
      show 2 ^ (32 - p) < 2 ^ (32 - net.prefixlen)
      exact Nat.pow_lt_pow_right (by norm_num) (by omega)

/-- C2 (witness): the amended theorem applied to base `10.0.0.0/20` with
`count = 4`, together with the spec's scenario: the four blocks are
`10.0.0.0/22, 10.0.4.0/22, 10.0.8.0/22, 10.0.12.0/22`. -/
theorem partitioner_correct_witness :
    (∃ p l, IsMinimalPfxLen 20 4 p ∧
      calculate_subnets ⟨167772160, 20⟩ 4 = Except.ok l ∧
      l.length = (4 : Int).toNat ∧
      (∀ b ∈ l, b.prefixlen = p) ∧
      l.Pairwise (fun a b => a.addr < b.addr) ∧
      l.Pairwise disjointBlocks ∧
      (∀ b ∈ l, subBlock b ⟨167772160, 20⟩) ∧
      ((2 : Int) ≤ 4 → ∀ b ∈ l, strictSubBlock b ⟨167772160, 20⟩)) ∧
    calculate_subnets ⟨167772160, 20⟩ 4 =
      Except.ok [⟨167772160, 22⟩, ⟨167773184, 22⟩, ⟨167774208, 22⟩,
        ⟨167775232, 22⟩] :=
  ⟨partitioner_correct_amended ⟨167772160, 20⟩ 4 (by decide) (by decide)
    (by decide), rfl⟩

/-- C3: for every valid base network and every count beyond the capacity of a
prefix-32 partition, the partitioner fails with the capacity error
(`ValueError`) and returns no blocks. -/
theorem partitioner_capacity_error (net : Ipv4Net) (count : Int)
    (hv : net.Valid)
    (hcap : ((2 ^ (32 - net.prefixlen) : Nat) : Int) < count) :
    ∃ msg, calculate_subnets net count = Except.error msg :=
  calculate_subnets_error net count hv.1 hcap

/-- C3 (witness): base `10.0.0.0/30` can hold at most 4 one-address blocks,
so a request for 8 fails. -/
theorem partitioner_capacity_error_witness :
    ∃ msg, calculate_subnets ⟨167772160, 30⟩ 8 = Except.error msg :=
  partitioner_capacity_error ⟨167772160, 30⟩ 8 (by decide) (by decide)

/-- C10: for `count = 1` the partitioner returns the base network itself
(same prefix, not a strict sub-network), and for every `count ≤ 0` it returns
the empty list without raising. -/
theorem partitioner_edge_cases (net : Ipv4Net) :
    calculate_subnets net 1 = Except.ok [net] ∧
    ∀ count : Int, count ≤ 0 → calculate_subnets net count = Except.ok [] := by
  have hfp : ∀ count : Int, count ≤ 1 →
      findPfxAux net.prefixlen count (32 - net.prefixlen) net.prefixlen 1 =
        (net.prefixlen, 1) := by
    intro count hc
    cases h : 32 - net.prefixlen with
    | zero => simp [findPfxAux]
    | succ k =>
      show findPfxAux net.prefixlen count (k + 1) net.prefixlen 1 = _
      rw [findPfxAux, if_neg]
      rintro ⟨h1, _⟩
      omega
  have hsingle : Ipv4Net.subnetsAt net net.prefixlen = [net] := by
    unfold Ipv4Net.subnetsAt
    rw [Nat.sub_self, pow_zero]
    have h01 : List.range 1 = [0] := by decide
    rw [h01]
    simp
  constructor
  · unfold calculate_subnets
    rw [hfp 1 (le_refl _), if_neg (by norm_num)]
    rw [hsingle]
    rfl
  · intro count hc
    unfold calculate_subnets
    rw [hfp count (by omega), if_neg (by push_cast; omega)]
    rw [hsingle]
    unfold pySliceTo
    rcases le_or_lt 0 count with h0 | h0
    · have : count = 0 := by omega
      subst this
      rfl
    · rw [if_neg (by omega)]
      simp only [List.length_cons, List.length_nil]
      rw [Int.toNat_of_nonpos (by omega)]
      rfl

/-- C10 (witness): the edge cases at base `10.0.0.0/20`, with `count = 1` and
`count = -3`. -/
theorem partitioner_edge_cases_witness :
    calculate_subnets ⟨167772160, 20⟩ 1 = Except.ok [⟨167772160, 20⟩] ∧
    calculate_subnets ⟨167772160, 20⟩ (-3) = Except.ok [] :=
  ⟨(partitioner_edge_cases ⟨167772160, 20⟩).1,
    (partitioner_edge_cases ⟨167772160, 20⟩).2 (-3) (by decide)⟩

/-! ### Rollback executor lemmas -/

/-- The subnet-deletion loop of `_rollback_vpc` appends one delete entry per
subnet id, advances the remote counter accordingly, and touches neither the
store counter nor earlier log entries. -/
theorem rollbackSubnets_log (w : Oracle) :
    ∀ (sids : List Nat) (e : Eff),
      ∃ ext, (rollbackSubnets w e sids).log = e.log ++ ext ∧
        ext.map LogEntry.call = sids.map Call.deleteSubnet ∧
        (rollbackSubnets w e sids).rn = e.rn + sids.length ∧
        (rollbackSubnets w e sids).sn = e.sn := by
  intro sids
  induction sids with
  | nil => intro e; exact ⟨[], by simp [rollbackSubnets]⟩
  | cons sid rest ih =>
    intro e
    obtain ⟨ext, h1, h2, h3, h4⟩ := ih (att w e (Call.deleteSubnet sid)).1
    refine ⟨⟨Call.deleteSubnet sid, w e.rn, e.rn⟩ :: ext, ?_, ?_, ?_, ?_⟩
    · rw [rollbackSubnets, h1]; simp [att]
    · simp [h2]
    · rw [rollbackSubnets, h3]; simp [att]; omega
    · rw [rollbackSubnets, h4]; rfl

/-- The route-table-deletion loop of `_rollback_vpc` appends one delete entry
per non-null route-table id, in order. -/
theorem rollbackRts_log (w : Oracle) :
    ∀ (rts : List (Option Nat)) (e : Eff),
      ∃ ext, (rollbackRts w e rts).log = e.log ++ ext ∧
        ext.map LogEntry.call =
          (rts.filterMap id).map Call.deleteRouteTable ∧
        (rollbackRts w e rts).rn = e.rn + (rts.filterMap id).length ∧
        (rollbackRts w e rts).sn = e.sn := by
  intro rts
  induction rts with
  | nil => intro e; exact ⟨[], by simp [rollbackRts]⟩
  | cons r rest ih =>
    intro e
    cases r with
    | none =>
      obtain ⟨ext, h1, h2, h3, h4⟩ := ih e
      exact ⟨ext, by rw [rollbackRts]; exact h1, by simpa using h2,
        by rw [rollbackRts]; simpa using h3, by rw [rollbackRts]; exact h4⟩
    | some rid =>
      obtain ⟨ext, h1, h2, h3, h4⟩ := ih (att w e (Call.deleteRouteTable rid)).1
      refine ⟨⟨Call.deleteRouteTable rid, w e.rn, e.rn⟩ :: ext, ?_, ?_, ?_, ?_⟩
      · rw [rollbackRts, h1]; simp [att]
      · simp [h2]
      · rw [rollbackRts, h3]; simp [att]; omega
      · rw [rollbackRts, h4]; rfl

/-- A rollback-safe call is neither a store operation, nor any creation call,
nor a route-table association. -/
theorem rollbackSafe_spec (c : Call) (h : rollbackSafe c = true) :
    c.isStore = false ∧ isCreateVpcCall c = false ∧ isCreateIgwCall c = false ∧
      isCreateRtCall c = false ∧ isCreateSubnetCall c = false ∧
      ∀ x rt, c ≠ Call.associateRouteTable x rt := by
  cases c <;>
    first
      | exact ⟨rfl, rfl, rfl, rfl, rfl, fun x rt hh => Call.noConfusion hh⟩
      | exact absurd h (by simp [rollbackSafe])

/-- Every call the rollback order prescribes is a rollback-safe remote
deletion. -/
theorem rollbackExpected_safe (w : Oracle) (s : Nat) (a : RollbackArgs) :
    ∀ c ∈ rollbackExpectedCalls w s a, rollbackSafe c = true := by
  obtain ⟨av, ag, art, asub⟩ := a
  intro c hc
  unfold rollbackExpectedCalls at hc
  simp only [List.mem_append] at hc
  rcases hc with ((h | h) | h) | h
  · obtain ⟨x, _, rfl⟩ := List.mem_map.mp h; rfl
  · obtain ⟨x, _, rfl⟩ := List.mem_map.mp h; rfl
  · rcases ag with _ | g <;> rcases av with _ | v
    · cases h
    · cases h
    · cases h
    · rcases List.mem_cons.mp h with rfl | h2
      · rfl
      · rcases hw : w (s + asub.length +
            (rtIdsOf ⟨some v, some g, art, asub⟩).length) with _ | _ <;>
          rw [hw] at h2
        · cases h2
        · have h3 : c = Call.deleteInternetGateway g := by simpa using h2
          subst h3
          rfl
  · rcases av with _ | v
    · cases h
    · rcases List.mem_cons.mp h with rfl | h2
      · rfl
      · cases h2

/-- C5: the Rollback Executor extends the log by exactly the prescribed call
sequence — every subnet delete, then every non-null route-table delete, then
(when both gateway and VPC ids are present) the gateway step, then the VPC
delete — regardless of which calls fail; it performs no store operation (its
store counter is untouched and no appended entry is a store call).  It is a
total function, so it never raises to its caller. -/
theorem rollback_order_total (w : Oracle) (e : Eff) (a : RollbackArgs) :
    ∃ ext, (rollback_vpc w e a).log = e.log ++ ext ∧
      ext.map LogEntry.call = rollbackExpectedCalls w e.rn a ∧
      (∀ l ∈ ext, l.call.isStore = false) ∧
      (rollback_vpc w e a).sn = e.sn := by
  obtain ⟨av, ag, art, asub⟩ := a
  obtain ⟨ext1, h11, h12, h13, h14⟩ := rollbackSubnets_log w asub e
  obtain ⟨ext2, h21, h22, h23, h24⟩ :=
    rollbackRts_log w art (rollbackSubnets w e asub)
  set e2 := rollbackRts w (rollbackSubnets w e asub) art with he2
  have hrn2 : e2.rn = e.rn + asub.length + (art.filterMap id).length := by
    rw [he2, h23, h13]
  have hsn2 : e2.sn = e.sn := by rw [he2, h24, h14]
  have hlog2 : e2.log = e.log ++ (ext1 ++ ext2) := by
    rw [he2, h21, h11, List.append_assoc]
  have hmain : ∃ ext, (rollback_vpc w e ⟨av, ag, art, asub⟩).log =
      e.log ++ ext ∧
      ext.map LogEntry.call = rollbackExpectedCalls w e.rn ⟨av, ag, art, asub⟩
      ∧ (rollback_vpc w e ⟨av, ag, art, asub⟩).sn = e.sn := by
    rcases ag with _ | g <;> rcases av with _ | v
    · refine ⟨ext1 ++ ext2, ?_, ?_, ?_⟩
      · show e2.log = _
        exact hlog2
      · show (ext1 ++ ext2).map LogEntry.call =
          asub.map Call.deleteSubnet ++
            (art.filterMap id).map Call.deleteRouteTable ++ [] ++ []
        rw [List.map_append, h12, h22]
        simp [rtIdsOf]
      · show e2.sn = e.sn
        exact hsn2
    · refine ⟨ext1 ++ ext2 ++ [⟨Call.deleteVpc v, w e2.rn, e2.rn⟩], ?_, ?_, ?_⟩
      · show (att w e2 (Call.deleteVpc v)).1.log = _
        simp only [att, hlog2]
        simp [List.append_assoc]
      · simp only [List.map_append, h12, h22]
        simp [rollbackExpectedCalls, rtIdsOf]
      · show (att w e2 (Call.deleteVpc v)).1.sn = e.sn
        simp [att, hsn2]
    · refine ⟨ext1 ++ ext2, ?_, ?_, ?_⟩
      · show e2.log = _
        exact hlog2
      · rw [List.map_append, h12, h22]
        simp [rollbackExpectedCalls, rtIdsOf]
      · show e2.sn = e.sn
        exact hsn2
    · rcases hw : w e2.rn with _ | _
      · refine ⟨ext1 ++ ext2 ++ [⟨Call.detachInternetGateway g v, false, e2.rn⟩,
          ⟨Call.deleteVpc v, w (e2.rn + 1), e2.rn + 1⟩], ?_, ?_, ?_⟩
        · show (att w (if (att w e2 (Call.detachInternetGateway g v)).2 = true
              then _ else (att w e2 (Call.detachInternetGateway g v)).1)
              (Call.deleteVpc v)).1.log = _
          rw [(by simp [att, hw] : (att w e2
            (Call.detachInternetGateway g v)).2 = false)]
          simp only [Bool.false_eq_true, if_false, att, hw, hlog2]
          simp [List.append_assoc]
        · simp only [List.map_append, h12, h22]
          have hw' : w (e.rn + asub.length +
              (List.filterMap id art).length) = false := by
            rw [← hrn2]
            exact hw
          simp [rollbackExpectedCalls, rtIdsOf, hw']
        · show (att w (if (att w e2 (Call.detachInternetGateway g v)).2 = true
              then _ else (att w e2 (Call.detachInternetGateway g v)).1)
              (Call.deleteVpc v)).1.sn = e.sn
          rw [(by simp [att, hw] : (att w e2
            (Call.detachInternetGateway g v)).2 = false)]
          simp [att, hsn2]
      · refine ⟨ext1 ++ ext2 ++ [⟨Call.detachInternetGateway g v, true, e2.rn⟩,
          ⟨Call.deleteInternetGateway g, w (e2.rn + 1), e2.rn + 1⟩,
          ⟨Call.deleteVpc v, w (e2.rn + 2), e2.rn + 2⟩], ?_, ?_, ?_⟩
        · show (att w (if (att w e2 (Call.detachInternetGateway g v)).2 = true
              then (att w (att w e2 (Call.detachInternetGateway g v)).1
                (Call.deleteInternetGateway g)).1
              else (att w e2 (Call.detachInternetGateway g v)).1)
              (Call.deleteVpc v)).1.log = _
          rw [(by simp [att, hw] : (att w e2
            (Call.detachInternetGateway g v)).2 = true)]
          simp only [if_true, att, hw, hlog2]
          simp [List.append_assoc]
        · simp only [List.map_append, h12, h22]
          have hw' : w (e.rn + asub.length +
              (List.filterMap id art).length) = true := by
            rw [← hrn2]
            exact hw
          simp [rollbackExpectedCalls, rtIdsOf, hw']
        · show (att w (if (att w e2 (Call.detachInternetGateway g v)).2 = true
              then (att w (att w e2 (Call.detachInternetGateway g v)).1
                (Call.deleteInternetGateway g)).1
              else (att w e2 (Call.detachInternetGateway g v)).1)
              (Call.deleteVpc v)).1.sn = e.sn
          rw [(by simp [att, hw] : (att w e2
            (Call.detachInternetGateway g v)).2 = true)]
          simp [att, hsn2]
  obtain ⟨ext, hm1, hm2, hm3⟩ := hmain
  refine ⟨ext, hm1, hm2, ?_, hm3⟩
  intro l hl
  have hcall : l.call ∈ rollbackExpectedCalls w e.rn ⟨av, ag, art, asub⟩ := by
    rw [← hm2]
    exact List.mem_map_of_mem _ hl
  exact (rollbackSafe_spec l.call
    (rollbackExpected_safe w e.rn ⟨av, ag, art, asub⟩ l.call hcall)).1

/-! ### Provisioner lemmas -/

/-- Extending a log with entries none of which is a successful match for `p`
does not change the first matching allocation. -/
theorem allocFirst_append_none (p : Call → Bool) (l1 l2 : List LogEntry)
    (h : ∀ l ∈ l2, (p l.call && l.ok) = false) :
    allocFirst p (l1 ++ l2) = allocFirst p l1 := by
  unfold allocFirst
  rw [List.find?_append]
  have hn : l2.find? (fun l => p l.call && l.ok) = none :=
    List.find?_eq_none.mpr (fun x hx => by simp [h x hx])
  rw [hn, Option.or_none]

/-- A first matching allocation survives any log extension. -/
theorem allocFirst_append_some (p : Call → Bool) (l1 l2 : List LogEntry)
    (x : Nat) (h : allocFirst p l1 = some x) :
    allocFirst p (l1 ++ l2) = some x := by
  unfold allocFirst at h ⊢
  rw [List.find?_append]
  cases hf : l1.find? (fun l => p l.call && l.ok) with
  | none => rw [hf] at h; simp at h
  | some y =>
    rw [hf] at h
    simpa using h

/-- When the first part of a log has no matching allocation, the first
matching allocation of the whole log is that of the extension. -/
theorem allocFirst_append_left_none (p : Call → Bool) (l1 l2 : List LogEntry)
    (h : allocFirst p l1 = none) :
    allocFirst p (l1 ++ l2) = allocFirst p l2 := by
  unfold allocFirst at h ⊢
  rw [List.find?_append]
  have h' : l1.find? (fun l => p l.call && l.ok) = none := by
    cases hf : l1.find? (fun l => p l.call && l.ok) with
    | none => rfl
    | some x => rw [hf] at h; simp at h
  rw [h', Option.none_or]

/-- `allocList` distributes over log concatenation. -/
theorem allocList_append (p : Call → Bool) (l1 l2 : List LogEntry) :
    allocList p (l1 ++ l2) = allocList p l1 ++ allocList p l2 :=
  List.filterMap_append _ _ _

/-- A log extension with no successful matching entries contributes no
allocations. -/
theorem allocList_none (p : Call → Bool) (l2 : List LogEntry)
    (h : ∀ l ∈ l2, (p l.call && l.ok) = false) : allocList p l2 = [] := by
  unfold allocList
  exact List.filterMap_eq_nil_iff.mpr (fun x hx => by simp [h x hx])

/-- `assocRts` distributes over log concatenation. -/
theorem assocRts_append (l1 l2 : List LogEntry) :
    assocRts (l1 ++ l2) = assocRts l1 ++ assocRts l2 :=
  List.filterMap_append _ _ _

/-- The exception handler of `create_vpc`: it returns the empty result,
leaves the store untouched, invokes the rollback executor with exactly the
locals it was handed, and — because the rollback issues only rollback-safe
calls — leaves every allocation extraction of the log unchanged. -/
theorem failOut_spec (wr : Oracle) (store : Store) (e : Eff)
    (v g rp rpv : Option Nat) (sids : List Nat) :
    (failOut wr store e v g rp rpv sids).result = none ∧
    (failOut wr store e v g rp rpv sids).store = store ∧
    (failOut wr store e v g rp rpv sids).rollback =
      some ⟨v, g, [rp, rpv], sids⟩ ∧
    allocFirst isCreateVpcCall (failOut wr store e v g rp rpv sids).eff.log =
      allocFirst isCreateVpcCall e.log ∧
    allocFirst isCreateIgwCall (failOut wr store e v g rp rpv sids).eff.log =
      allocFirst isCreateIgwCall e.log ∧
    allocList isCreateRtCall (failOut wr store e v g rp rpv sids).eff.log =
      allocList isCreateRtCall e.log ∧
    allocList isCreateSubnetCall
        (failOut wr store e v g rp rpv sids).eff.log =
      allocList isCreateSubnetCall e.log ∧
    (∃ ext2, (failOut wr store e v g rp rpv sids).eff.log = e.log ++ ext2 ∧
      ∀ l ∈ ext2, isCreateVpcCall l.call = false) := by
  obtain ⟨ext, h1, h2, _, _⟩ :=
    rollback_order_total wr e ⟨v, g, [rp, rpv], sids⟩
  have hsafe : ∀ l ∈ ext, rollbackSafe l.call = true := by
    intro l hl
    apply rollbackExpected_safe wr e.rn _ l.call
    rw [← h2]
    exact List.mem_map_of_mem _ hl
  have hlog : (failOut wr store e v g rp rpv sids).eff.log = e.log ++ ext := h1
  refine ⟨rfl, rfl, rfl, ?_, ?_, ?_, ?_, ?_⟩
  · rw [hlog]
    exact allocFirst_append_none _ _ _
      (fun l hl => by simp [(rollbackSafe_spec l.call (hsafe l hl)).2.1])
  · rw [hlog]
    exact allocFirst_append_none _ _ _
      (fun l hl => by simp [(rollbackSafe_spec l.call (hsafe l hl)).2.2.1])
  · rw [hlog, allocList_append, allocList_none _ ext
      (fun l hl => by simp [(rollbackSafe_spec l.call (hsafe l hl)).2.2.2.1]),
      List.append_nil]
  · rw [hlog, allocList_append, allocList_none _ ext
      (fun l hl => by
        simp [(rollbackSafe_spec l.call (hsafe l hl)).2.2.2.2.1]),
      List.append_nil]
  · exact ⟨ext, hlog,
      fun l hl => (rollbackSafe_spec l.call (hsafe l hl)).2.1⟩

/-- If the per-subnet loop fails, the surviving `subnet_ids` accumulator is
exactly the starting accumulator extended by the subnets whose creation call
succeeded during the loop, the loop issues no store call and no VPC, gateway
or route-table creation, and the store counter is untouched. -/
theorem subnetLoop_error_spec (w : Oracle) (vpcId rtPub rtPriv : Nat)
    (pc : Int) (stags : Option (List Tag)) :
    ∀ (cidrs : List Ipv4Net) (idx : Nat) (acc : List Nat) (e e' : Eff)
      (sids : List Nat),
      subnetLoop w vpcId rtPub rtPriv pc stags e cidrs idx acc =
        (e', Except.error sids) →
      ∃ ext, e'.log = e.log ++ ext ∧ e'.sn = e.sn ∧
        (∀ l ∈ ext, l.call.isStore = false ∧ isCreateVpcCall l.call = false ∧
          isCreateIgwCall l.call = false ∧ isCreateRtCall l.call = false) ∧
        sids = acc ++ allocList isCreateSubnetCall ext := by
  intro cidrs
  induction cidrs with
  | nil =>
    intro idx acc e e' sids h
    have h2 := congrArg Prod.snd h
    simp [subnetLoop] at h2
  | cons c rest ih =>
    intro idx acc e e' sids h
    rw [subnetLoop] at h
    simp only [att] at h
    rcases h1 : w e.rn with _ | _
    · rw [h1] at h
      simp only [Bool.false_eq_true, if_false] at h
      obtain ⟨he, hs⟩ := Prod.mk.injEq .. ▸ h
      refine ⟨[⟨Call.createSubnet vpcId c, false, e.rn⟩], ?_, ?_, ?_, ?_⟩
      · rw [← he]
      · rw [← he]
      · intro l hl
        rcases List.mem_singleton.mp hl with rfl
        exact ⟨rfl, rfl, rfl, rfl⟩
      · have hsids : sids = acc := by
          cases hs.symm
          rfl
        rw [hsids]
        simp [allocList, h1]
    · rw [h1] at h
      simp only [if_true] at h
      rcases h2 : w (e.rn + 1) with _ | _
      · rw [h2] at h
        simp only [Bool.false_eq_true, if_false] at h
        obtain ⟨he, hs⟩ := Prod.mk.injEq .. ▸ h
        refine ⟨[⟨Call.createSubnet vpcId c, true, e.rn⟩,
          ⟨Call.createTags e.rn [subnetTagFor stags idx], false, e.rn + 1⟩],
          ?_, ?_, ?_, ?_⟩
        · rw [← he]; simp
        · rw [← he]
        · intro l hl
          rcases List.mem_cons.mp hl with rfl | hl2
          · exact ⟨rfl, rfl, rfl, rfl⟩
          · rcases List.mem_singleton.mp hl2 with rfl
            exact ⟨rfl, rfl, rfl, rfl⟩
        · have hsids : sids = acc ++ [e.rn] := by
            cases hs.symm
            rfl
          rw [hsids]
          simp [allocList, h1, h2, isCreateSubnetCall]
      · rw [h2] at h
        simp only [if_true] at h
        rcases h3 : w (e.rn + 2) with _ | _
        · rw [h3] at h
          simp only [Bool.false_eq_true, if_false] at h
          obtain ⟨he, hs⟩ := Prod.mk.injEq .. ▸ h
          refine ⟨[⟨Call.createSubnet vpcId c, true, e.rn⟩,
            ⟨Call.createTags e.rn [subnetTagFor stags idx], true, e.rn + 1⟩,
            ⟨Call.associateRouteTable e.rn
              (if (idx : Int) < pc then rtPub else rtPriv), false, e.rn + 2⟩],
            ?_, ?_, ?_, ?_⟩
          · rw [← he]; simp
          · rw [← he]
          · intro l hl
            rcases List.mem_cons.mp hl with rfl | hl2
            · exact ⟨rfl, rfl, rfl, rfl⟩
            · rcases List.mem_cons.mp hl2 with rfl | hl3
              · exact ⟨rfl, rfl, rfl, rfl⟩
              · rcases List.mem_singleton.mp hl3 with rfl
                exact ⟨rfl, rfl, rfl, rfl⟩
          · have hsids : sids = acc ++ [e.rn] := by
              cases hs.symm
              rfl
            rw [hsids]
            simp [allocList, isCreateSubnetCall]
        · rw [h3] at h
          simp only [if_true] at h
          obtain ⟨ext', hl', hs', hshape', hsids'⟩ :=
            ih (idx + 1) (acc ++ [e.rn]) _ e' sids h
          refine ⟨[⟨Call.createSubnet vpcId c, true, e.rn⟩,
            ⟨Call.createTags e.rn [subnetTagFor stags idx], true, e.rn + 1⟩,
            ⟨Call.associateRouteTable e.rn
              (if (idx : Int) < pc then rtPub else rtPriv), true, e.rn + 2⟩]
            ++ ext', ?_, ?_, ?_, ?_⟩
          · rw [hl']
            simp
          · rw [hs']
          · intro l hl
            rcases List.mem_append.mp hl with hl2 | hl2
            · rcases List.mem_cons.mp hl2 with rfl | hl3
              · exact ⟨rfl, rfl, rfl, rfl⟩
              · rcases List.mem_cons.mp hl3 with rfl | hl4
                · exact ⟨rfl, rfl, rfl, rfl⟩
                · rcases List.mem_singleton.mp hl4 with rfl
                  exact ⟨rfl, rfl, rfl, rfl⟩
            · exact hshape' l hl2
          · rw [hsids', allocList_append]
            have : allocList isCreateSubnetCall
                [⟨Call.createSubnet vpcId c, true, e.rn⟩,
                 ⟨Call.createTags e.rn [subnetTagFor stags idx], true,
                   e.rn + 1⟩,
                 ⟨Call.associateRouteTable e.rn
                   (if (idx : Int) < pc then rtPub else rtPriv), true,
                   e.rn + 2⟩] = [e.rn] := by
              simp [allocList, isCreateSubnetCall]
            rw [this]
            simp

/-- If the per-subnet loop succeeds, every call in it succeeded: the returned
`subnet_ids` are the consecutive ids the creations were assigned, the
association calls bind index `i` (counting from the starting index) to the
public route table exactly when that index is below the public count, the
loop issues no store call, and the store counter is untouched. -/
theorem subnetLoop_ok_spec (w : Oracle) (vpcId rtPub rtPriv : Nat)
    (pc : Int) (stags : Option (List Tag)) :
    ∀ (cidrs : List Ipv4Net) (idx : Nat) (acc : List Nat) (e e' : Eff)
      (sids : List Nat),
      subnetLoop w vpcId rtPub rtPriv pc stags e cidrs idx acc =
        (e', Except.ok sids) →
      ∃ ext, e'.log = e.log ++ ext ∧ e'.sn = e.sn ∧
        sids = acc ++ (List.range cidrs.length).map (fun i => e.rn + 3 * i) ∧
        assocRts ext = (List.range cidrs.length).map
          (fun i => if ((idx + i : Nat) : Int) < pc then rtPub else rtPriv) ∧
        (∀ l ∈ ext, l.call.isStore = false ∧ isCreateVpcCall l.call = false ∧
          isCreateIgwCall l.call = false ∧ isCreateRtCall l.call = false) ∧
        allocList isCreateSubnetCall ext =
          (List.range cidrs.length).map (fun i => e.rn + 3 * i) := by
  intro cidrs
  induction cidrs with
  | nil =>
    intro idx acc e e' sids h
    rw [subnetLoop] at h
    obtain ⟨he, hs⟩ := Prod.mk.injEq .. ▸ h
    refine ⟨[], by rw [← he]; simp, by rw [← he], ?_, by simp [assocRts],
      by simp, by simp [allocList]⟩
    have : acc = sids := by
      have := hs
      injection this
    rw [← this]
    simp
  | cons c rest ih =>
    intro idx acc e e' sids h
    rw [subnetLoop] at h
    simp only [att] at h
    rcases h1 : w e.rn with _ | _
    · rw [h1] at h
      simp at h
    · rw [h1] at h
      simp only [if_true] at h
      rcases h2 : w (e.rn + 1) with _ | _
      · rw [h2] at h
        simp at h
      · rw [h2] at h
        simp only [if_true] at h
        rcases h3 : w (e.rn + 2) with _ | _
        · rw [h3] at h
          simp at h
        · rw [h3] at h
          simp only [if_true] at h
          obtain ⟨ext', hl', hs', hsids', hassoc', hstore', halloc'⟩ :=
            ih (idx + 1) (acc ++ [e.rn]) _ e' sids h
          refine ⟨[⟨Call.createSubnet vpcId c, true, e.rn⟩,
            ⟨Call.createTags e.rn [subnetTagFor stags idx], true, e.rn + 1⟩,
            ⟨Call.associateRouteTable e.rn
              (if (idx : Int) < pc then rtPub else rtPriv), true, e.rn + 2⟩]
            ++ ext', ?_, ?_, ?_, ?_, ?_, ?_⟩
          · rw [hl']
            simp
          · rw [hs']
          · rw [hsids']
            simp only [List.length_cons, List.range_succ_eq_map,
              List.map_cons, List.map_map]
            have hfn : ∀ i ∈ List.range rest.length,
                ((fun i => e.rn + 3 * i) ∘ Nat.succ) i =
                  (fun i => e.rn + 1 + 1 + 1 + 3 * i) i := by
              intro i _
              simp [Function.comp]
              omega
            rw [List.map_congr_left hfn]
            simp
          · rw [assocRts_append, hassoc']
            simp only [List.length_cons, List.range_succ_eq_map,
              List.map_cons, List.map_map]
            have hfn : ∀ i ∈ List.range rest.length,
                ((fun i => if ((idx + i : Nat) : Int) < pc then rtPub
                  else rtPriv) ∘ Nat.succ) i =
                  (fun i => if ((idx + 1 + i : Nat) : Int) < pc then rtPub
                    else rtPriv) i := by
              intro i _
              have h13 : idx + Nat.succ i = idx + 1 + i := by omega
              simp [Function.comp, h13]
            rw [List.map_congr_left hfn]
            simp [assocRts]
          · intro l hl
            rcases List.mem_append.mp hl with hl2 | hl2
            · rcases List.mem_cons.mp hl2 with rfl | hl3
              · exact ⟨rfl, rfl, rfl, rfl⟩
              · rcases List.mem_cons.mp hl3 with rfl | hl4
                · exact ⟨rfl, rfl, rfl, rfl⟩
                · rcases List.mem_singleton.mp hl4 with rfl
                  exact ⟨rfl, rfl, rfl, rfl⟩
            · exact hstore' l hl2
          · rw [allocList_append, halloc']
            simp only [List.length_cons, List.range_succ_eq_map,
              List.map_cons, List.map_map]
            have hfn : ∀ i ∈ List.range rest.length,
                ((fun i => e.rn + 3 * i) ∘ Nat.succ) i =
                  (fun i => e.rn + 1 + 1 + 1 + 3 * i) i := by
              intro i _
              simp [Function.comp]
              omega
            rw [List.map_congr_left hfn]
            simp [allocList, isCreateSubnetCall]

/-- A failure leaf of `create_vpc`: when the extraction of the pre-failure
log already yields the identifiers the handler is invoked with, the
handler's rollback tuple is exactly the extraction of the final log. -/
theorem failOut_extract (wr : Oracle) (store : Store) (e : Eff)
    (v g rp rpv : Option Nat) (sids : List Nat)
    (hg : allocFirst isCreateIgwCall e.log = g)
    (hrp : (allocList isCreateRtCall e.log)[0]? = rp)
    (hrpv : (allocList isCreateRtCall e.log)[1]? = rpv)
    (hs : allocList isCreateSubnetCall e.log = sids) :
    (failOut wr store e v g rp rpv sids).result = none ∧
    (failOut wr store e v g rp rpv sids).store = store ∧
    (failOut wr store e v g rp rpv sids).rollback =
      some ⟨v,
        allocFirst isCreateIgwCall
          (failOut wr store e v g rp rpv sids).eff.log,
        [(allocList isCreateRtCall
            (failOut wr store e v g rp rpv sids).eff.log)[0]?,
          (allocList isCreateRtCall
            (failOut wr store e v g rp rpv sids).eff.log)[1]?],
        allocList isCreateSubnetCall
          (failOut wr store e v g rp rpv sids).eff.log⟩ ∧
    (∃ ext2, (failOut wr store e v g rp rpv sids).eff.log = e.log ++ ext2 ∧
      ∀ l ∈ ext2, isCreateVpcCall l.call = false) := by
  obtain ⟨h1, h2, h3, _, h5, h6, h7, h8⟩ :=
    failOut_spec wr store e v g rp rpv sids
  refine ⟨h1, h2, ?_, h8⟩
  rw [h3, h5, h6, h7, hg, hrp, hrpv, hs]

/-- Packaging of a failure leaf of the provisioning tail: the outcome's log
extends the given prefix with non-VPC-creation entries, the rollback tuple is
the extraction of the final log, and the success continuation is vacuous. -/
theorem failOut_leaf (wr : Oracle) (store : Store) (e' : Eff)
    (elog ents : List LogEntry) (v g rp rpv : Option Nat) (sids : List Nat)
    (P : Item → Prop)
    (hsplit : e'.log = elog ++ ents)
    (hnovpc : ∀ l ∈ ents, isCreateVpcCall l.call = false)
    (hg : allocFirst isCreateIgwCall e'.log = g)
    (hrp : (allocList isCreateRtCall e'.log)[0]? = rp)
    (hrpv : (allocList isCreateRtCall e'.log)[1]? = rpv)
    (hs : allocList isCreateSubnetCall e'.log = sids) :
    (∃ ext, (failOut wr store e' v g rp rpv sids).eff.log = elog ++ ext ∧
      ∀ l ∈ ext, isCreateVpcCall l.call = false) ∧
    ((failOut wr store e' v g rp rpv sids).result = none →
      (failOut wr store e' v g rp rpv sids).rollback =
        some ⟨v,
          allocFirst isCreateIgwCall
            (failOut wr store e' v g rp rpv sids).eff.log,
          [(allocList isCreateRtCall
              (failOut wr store e' v g rp rpv sids).eff.log)[0]?,
            (allocList isCreateRtCall
              (failOut wr store e' v g rp rpv sids).eff.log)[1]?],
          allocList isCreateSubnetCall
            (failOut wr store e' v g rp rpv sids).eff.log⟩ ∧
      (failOut wr store e' v g rp rpv sids).store = store) ∧
    (∀ item, (failOut wr store e' v g rp rpv sids).result = some item →
      P item) := by
  obtain ⟨hres, hst, hrb, hex⟩ :=
    failOut_extract wr store e' v g rp rpv sids hg hrp hrpv hs
  refine ⟨?_, fun _ => ⟨hrb, hst⟩, fun item hitem => ?_⟩
  · obtain ⟨ext2, hlog2, hnv2⟩ := hex
    refine ⟨ents ++ ext2, ?_, ?_⟩
    · rw [hlog2, hsplit, List.append_assoc]
    · intro l hl
      rcases List.mem_append.mp hl with hl2 | hl2
      · exact hnovpc l hl2
      · exact hnv2 l hl2
  · rw [hres] at hitem
    exact absurd hitem (by simp)

/-- Master characterization of the provisioning tail (gateway creation
onward), for a starting log that holds no gateway, route-table or subnet
allocation and no association: the outcome log extends the starting log
with non-VPC-creation entries; on failure the rollback executor receives
the VPC id it was started with together with exactly the gateway,
route-table and subnet identifiers allocated so far (as read off the final
log) and the store is untouched; on success the persisted item holds the
ids the calls assigned (gateway `e.rn`, route tables `e.rn+2` and
`e.rn+5`, consecutive subnet ids from `e.rn+7`), and the association calls
bind partition index `i` to the public route table exactly when `i` is
below the effective public count. -/
theorem create_vpc_tail_spec (wr ws : Oracle) (store : Store)
    (region : String) (net : Ipv4Net) (cnt : Int) (pub : Option Int)
    (vtags stags : Option (List Tag)) (vpcId : Nat) (e : Eff)
    (hIgw : allocFirst isCreateIgwCall e.log = none)
    (hRt : allocList isCreateRtCall e.log = [])
    (hSub : allocList isCreateSubnetCall e.log = [])
    (hAssoc : assocRts e.log = []) :
    ∀ o : CreateOutcome,
      create_vpc_tail wr ws store region net cnt pub vtags stags vpcId e =
        o →
      (∃ ext, o.eff.log = e.log ++ ext ∧
        ∀ l ∈ ext, isCreateVpcCall l.call = false) ∧
      (o.result = none →
        o.rollback = some ⟨some vpcId,
          allocFirst isCreateIgwCall o.eff.log,
          [(allocList isCreateRtCall o.eff.log)[0]?,
            (allocList isCreateRtCall o.eff.log)[1]?],
          allocList isCreateSubnetCall o.eff.log⟩ ∧
        o.store = store) ∧
      (∀ item, o.result = some item →
        o.store = putItemStore store item ∧
        ∃ cidrs, calculate_subnets net cnt = Except.ok cidrs ∧
          item = ⟨vpcId, region,
            (List.range cidrs.length).map (fun i => e.rn + 7 + 3 * i),
            vtags.getD [], some e.rn, some (e.rn + 2), some (e.rn + 5)⟩ ∧
          assocRts o.eff.log = (List.range cidrs.length).map
            (fun i : Nat => if (i : Int) < effectivePublicCount pub cnt
              then e.rn + 2 else e.rn + 5)) := by
  intro o ho
  unfold create_vpc_tail at ho
  simp only [att, sAtt] at ho
  split at ho
  · next hc =>
    have h1 : wr e.rn = false := by simpa [att] using hc
    rw [h1] at ho
    subst ho
    refine failOut_leaf wr store _ e.log
      [⟨Call.createInternetGateway, false, e.rn⟩]
      _ _ _ _ _ _ (by simp) ?_ ?_ ?_ ?_ ?_
    · intro l hl
      fin_cases hl <;> rfl
    · rw [allocFirst_append_none _ _ _ ?_]
      · exact hIgw
      · intro l hl
        fin_cases hl <;> rfl
    · simp only [allocList_append, hRt]
      simp [allocList, isCreateRtCall]
    · simp only [allocList_append, hRt]
      simp [allocList, isCreateRtCall]
    · simp only [allocList_append, hSub]
      simp [allocList, isCreateSubnetCall]
  · next hc =>
    have h1 : wr e.rn = true := by simpa [att] using hc
    rw [h1] at ho
    split at ho
    · next hc =>
      have h2 : wr (e.rn + 1) = false := by simpa [att] using hc
      rw [h2] at ho
      subst ho
      refine failOut_leaf wr store _ e.log
        [⟨Call.createInternetGateway, true, e.rn⟩,
         ⟨Call.attachInternetGateway vpcId e.rn, false, e.rn + 1⟩]
        _ _ _ _ _ _ (by simp) ?_ ?_ ?_ ?_ ?_
      · intro l hl
        fin_cases hl <;> rfl
      · simp only [List.append_assoc]
        rw [allocFirst_append_left_none _ _ _ hIgw]
        simp [allocFirst, isCreateIgwCall, List.find?]
      · simp only [allocList_append, hRt]
        simp [allocList, isCreateRtCall]
      · simp only [allocList_append, hRt]
        simp [allocList, isCreateRtCall]
      · simp only [allocList_append, hSub]
        simp [allocList, isCreateSubnetCall]
    · next hc =>
      have h2 : wr (e.rn + 1) = true := by simpa [att] using hc
      rw [h2] at ho
      split at ho
      · next hc =>
        have h3 : wr (e.rn + 1 + 1) = false := by simpa [att] using hc
        rw [h3] at ho
        subst ho
        refine failOut_leaf wr store _ e.log
          [⟨Call.createInternetGateway, true, e.rn⟩,
           ⟨Call.attachInternetGateway vpcId e.rn, true, e.rn + 1⟩,
           ⟨Call.createRouteTable vpcId, false, e.rn + 1 + 1⟩]
          _ _ _ _ _ _ (by simp) ?_ ?_ ?_ ?_ ?_
        · intro l hl
          fin_cases hl <;> rfl
        · simp only [List.append_assoc]
          rw [allocFirst_append_left_none _ _ _ hIgw]
          simp [allocFirst, isCreateIgwCall, List.find?]
        · simp only [allocList_append, hRt]
          simp [allocList, isCreateRtCall]
        · simp only [allocList_append, hRt]
          simp [allocList, isCreateRtCall]
        · simp only [allocList_append, hSub]
          simp [allocList, isCreateSubnetCall]
      · next hc =>
        have h3 : wr (e.rn + 1 + 1) = true := by simpa [att] using hc
        rw [h3] at ho
        split at ho
        · next hc =>
          have h4 : wr (e.rn + 1 + 1 + 1) = false := by simpa [att] using hc
          rw [h4] at ho
          subst ho
          refine failOut_leaf wr store _ e.log
            [⟨Call.createInternetGateway, true, e.rn⟩,
             ⟨Call.attachInternetGateway vpcId e.rn, true, e.rn + 1⟩,
             ⟨Call.createRouteTable vpcId, true, e.rn + 1 + 1⟩,
             ⟨Call.createTags (e.rn + 1 + 1) [⟨"Name", "Public-RT"⟩], false, e.rn + 1 + 1 + 1⟩]
            _ _ _ _ _ _ (by simp) ?_ ?_ ?_ ?_ ?_
          · intro l hl
            fin_cases hl <;> rfl
          · simp only [List.append_assoc]
            rw [allocFirst_append_left_none _ _ _ hIgw]
            simp [allocFirst, isCreateIgwCall, List.find?]
          · simp only [allocList_append, hRt]
            simp [allocList, isCreateRtCall]
          · simp only [allocList_append, hRt]
            simp [allocList, isCreateRtCall]
          · simp only [allocList_append, hSub]
            simp [allocList, isCreateSubnetCall]
        · next hc =>
          have h4 : wr (e.rn + 1 + 1 + 1) = true := by simpa [att] using hc
          rw [h4] at ho
          split at ho
          · next hc =>
            have h5 : wr (e.rn + 1 + 1 + 1 + 1) = false := by simpa [att] using hc
            rw [h5] at ho
            subst ho
            refine failOut_leaf wr store _ e.log
              [⟨Call.createInternetGateway, true, e.rn⟩,
               ⟨Call.attachInternetGateway vpcId e.rn, true, e.rn + 1⟩,
               ⟨Call.createRouteTable vpcId, true, e.rn + 1 + 1⟩,
               ⟨Call.createTags (e.rn + 1 + 1) [⟨"Name", "Public-RT"⟩], true, e.rn + 1 + 1 + 1⟩,
               ⟨Call.createRoute (e.rn + 1 + 1) e.rn, false, e.rn + 1 + 1 + 1 + 1⟩]
              _ _ _ _ _ _ (by simp) ?_ ?_ ?_ ?_ ?_
            · intro l hl
              fin_cases hl <;> rfl
            · simp only [List.append_assoc]
              rw [allocFirst_append_left_none _ _ _ hIgw]
              simp [allocFirst, isCreateIgwCall, List.find?]
            · simp only [allocList_append, hRt]
              simp [allocList, isCreateRtCall]
            · simp only [allocList_append, hRt]
              simp [allocList, isCreateRtCall]
            · simp only [allocList_append, hSub]
              simp [allocList, isCreateSubnetCall]
          · next hc =>
            have h5 : wr (e.rn + 1 + 1 + 1 + 1) = true := by simpa [att] using hc
            rw [h5] at ho
            split at ho
            · next hc =>
              have h6 : wr (e.rn + 1 + 1 + 1 + 1 + 1) = false := by simpa [att] using hc
              rw [h6] at ho
              subst ho
              refine failOut_leaf wr store _ e.log
                [⟨Call.createInternetGateway, true, e.rn⟩,
                 ⟨Call.attachInternetGateway vpcId e.rn, true, e.rn + 1⟩,
                 ⟨Call.createRouteTable vpcId, true, e.rn + 1 + 1⟩,
                 ⟨Call.createTags (e.rn + 1 + 1) [⟨"Name", "Public-RT"⟩], true, e.rn + 1 + 1 + 1⟩,
                 ⟨Call.createRoute (e.rn + 1 + 1) e.rn, true, e.rn + 1 + 1 + 1 + 1⟩,
                 ⟨Call.createRouteTable vpcId, false, e.rn + 1 + 1 + 1 + 1 + 1⟩]
                _ _ _ _ _ _ (by simp) ?_ ?_ ?_ ?_ ?_
              · intro l hl
                fin_cases hl <;> rfl
              · simp only [List.append_assoc]
                rw [allocFirst_append_left_none _ _ _ hIgw]
                simp [allocFirst, isCreateIgwCall, List.find?]
              · simp only [allocList_append, hRt]
                simp [allocList, isCreateRtCall]
              · simp only [allocList_append, hRt]
                simp [allocList, isCreateRtCall]
              · simp only [allocList_append, hSub]
                simp [allocList, isCreateSubnetCall]
            · next hc =>
              have h6 : wr (e.rn + 1 + 1 + 1 + 1 + 1) = true := by simpa [att] using hc
              rw [h6] at ho
              split at ho
              · next hc =>
                have h7 : wr (e.rn + 1 + 1 + 1 + 1 + 1 + 1) = false := by simpa [att] using hc
                rw [h7] at ho
                subst ho
                refine failOut_leaf wr store _ e.log
                  [⟨Call.createInternetGateway, true, e.rn⟩,
                   ⟨Call.attachInternetGateway vpcId e.rn, true, e.rn + 1⟩,
                   ⟨Call.createRouteTable vpcId, true, e.rn + 1 + 1⟩,
                   ⟨Call.createTags (e.rn + 1 + 1) [⟨"Name", "Public-RT"⟩], true, e.rn + 1 + 1 + 1⟩,
                   ⟨Call.createRoute (e.rn + 1 + 1) e.rn, true, e.rn + 1 + 1 + 1 + 1⟩,
                   ⟨Call.createRouteTable vpcId, true, e.rn + 1 + 1 + 1 + 1 + 1⟩,
                   ⟨Call.createTags (e.rn + 1 + 1 + 1 + 1 + 1) [⟨"Name", "Private-RT"⟩], false, e.rn + 1 + 1 + 1 + 1 + 1 + 1⟩]
                  _ _ _ _ _ _ (by simp) ?_ ?_ ?_ ?_ ?_
                · intro l hl
                  fin_cases hl <;> rfl
                · simp only [List.append_assoc]
                  rw [allocFirst_append_left_none _ _ _ hIgw]
                  simp [allocFirst, isCreateIgwCall, List.find?]
                · simp only [allocList_append, hRt]
                  simp [allocList, isCreateRtCall]
                · simp only [allocList_append, hRt]
                  simp [allocList, isCreateRtCall]
                · simp only [allocList_append, hSub]
                  simp [allocList, isCreateSubnetCall]
              · next hc =>
                have h7 : wr (e.rn + 1 + 1 + 1 + 1 + 1 + 1) = true := by simpa [att] using hc
                rw [h7] at ho
                split at ho
                · next msg heqc =>
                  subst ho
                  refine failOut_leaf wr store _ e.log
                    [⟨Call.createInternetGateway, true, e.rn⟩,
                     ⟨Call.attachInternetGateway vpcId e.rn, true, e.rn + 1⟩,
                     ⟨Call.createRouteTable vpcId, true, e.rn + 1 + 1⟩,
                     ⟨Call.createTags (e.rn + 1 + 1) [⟨"Name", "Public-RT"⟩], true, e.rn + 1 + 1 + 1⟩,
                     ⟨Call.createRoute (e.rn + 1 + 1) e.rn, true, e.rn + 1 + 1 + 1 + 1⟩,
                     ⟨Call.createRouteTable vpcId, true, e.rn + 1 + 1 + 1 + 1 + 1⟩,
                     ⟨Call.createTags (e.rn + 1 + 1 + 1 + 1 + 1) [⟨"Name", "Private-RT"⟩], true, e.rn + 1 + 1 + 1 + 1 + 1 + 1⟩]
                    _ _ _ _ _ _ (by simp) ?_ ?_ ?_ ?_ ?_
                  · intro l hl
                    fin_cases hl <;> rfl
                  · simp only [List.append_assoc]
                    rw [allocFirst_append_left_none _ _ _ hIgw]
                    simp [allocFirst, isCreateIgwCall, List.find?]
                  · simp only [allocList_append, hRt]
                    simp [allocList, isCreateRtCall]
                  · simp only [allocList_append, hRt]
                    simp [allocList, isCreateRtCall]
                  · simp only [allocList_append, hSub]
                    simp [allocList, isCreateSubnetCall]
                · next cidrs heqc =>
                  split at ho
                  · next e11 sids heql =>
                    subst ho
                    obtain ⟨extp, hlp, hsp, hshapep, hsidsp⟩ :=
                      subnetLoop_error_spec wr vpcId _ _ _ stags cidrs 0 []
                        _ e11 sids heql
                    refine failOut_leaf wr store _ e.log
                      ([⟨Call.createInternetGateway, true, e.rn⟩,
                        ⟨Call.attachInternetGateway vpcId e.rn, true, e.rn + 1⟩,
                        ⟨Call.createRouteTable vpcId, true, e.rn + 1 + 1⟩,
                        ⟨Call.createTags (e.rn + 1 + 1) [⟨"Name", "Public-RT"⟩], true, e.rn + 1 + 1 + 1⟩,
                        ⟨Call.createRoute (e.rn + 1 + 1) e.rn, true, e.rn + 1 + 1 + 1 + 1⟩,
                        ⟨Call.createRouteTable vpcId, true, e.rn + 1 + 1 + 1 + 1 + 1⟩,
                        ⟨Call.createTags (e.rn + 1 + 1 + 1 + 1 + 1) [⟨"Name", "Private-RT"⟩], true, e.rn + 1 + 1 + 1 + 1 + 1 + 1⟩]
                        ++ extp)
                      _ _ _ _ _ _ ?_ ?_ ?_ ?_ ?_ ?_
                    · rw [hlp]
                      simp
                    · intro l hl
                      rcases List.mem_append.mp hl with hl0 | hl0
                      · fin_cases hl0 <;> rfl
                      · exact (hshapep l hl0).2.1
                    · rw [hlp]
                      simp only [List.append_assoc]
                      rw [allocFirst_append_left_none _ _ _ hIgw]
                      simp [allocFirst, isCreateIgwCall, List.find?]
                    · rw [hlp]
                      simp only [List.append_assoc, allocList_append, hRt]
                      rw [allocList_none _ extp
                        (fun l hl => by simp [(hshapep l hl).2.2.2])]
                      simp [allocList, isCreateRtCall]
                    · rw [hlp]
                      simp only [List.append_assoc, allocList_append, hRt]
                      rw [allocList_none _ extp
                        (fun l hl => by simp [(hshapep l hl).2.2.2])]
                      simp [allocList, isCreateRtCall]
                    · rw [hlp]
                      simp only [List.append_assoc, allocList_append, hSub]
                      rw [hsidsp]
                      simp [allocList, isCreateSubnetCall]
                  · next e11 sids heql =>
                    obtain ⟨extp, hlp, hsp, hsidsp, hassocp, hshapep,
                      hallocp⟩ := subnetLoop_ok_spec wr vpcId _ _ _ stags
                        cidrs 0 [] _ e11 sids heql
                    split at ho
                    · next hcp =>
                      have hp : ws e11.sn = false := by simpa using hcp
                      rw [hp] at ho
                      subst ho
                      refine failOut_leaf wr store _ e.log
                        ([⟨Call.createInternetGateway, true, e.rn⟩,
                          ⟨Call.attachInternetGateway vpcId e.rn, true, e.rn + 1⟩,
                          ⟨Call.createRouteTable vpcId, true, e.rn + 1 + 1⟩,
                          ⟨Call.createTags (e.rn + 1 + 1) [⟨"Name", "Public-RT"⟩], true, e.rn + 1 + 1 + 1⟩,
                          ⟨Call.createRoute (e.rn + 1 + 1) e.rn, true, e.rn + 1 + 1 + 1 + 1⟩,
                          ⟨Call.createRouteTable vpcId, true, e.rn + 1 + 1 + 1 + 1 + 1⟩,
                          ⟨Call.createTags (e.rn + 1 + 1 + 1 + 1 + 1) [⟨"Name", "Private-RT"⟩], true, e.rn + 1 + 1 + 1 + 1 + 1 + 1⟩]
                          ++ extp ++ [⟨Call.putItem vpcId, false, e11.sn⟩])
                        _ _ _ _ _ _ ?_ ?_ ?_ ?_ ?_ ?_
                      · show e11.log ++ _ = _
                        rw [hlp]
                        simp
                      · intro l hl
                        rcases List.mem_append.mp hl with hl0 | hl0
                        · rcases List.mem_append.mp hl0 with hl1 | hl1
                          · fin_cases hl1 <;> rfl
                          · exact (hshapep l hl1).2.1
                        · fin_cases hl0 <;> rfl
                      · show allocFirst isCreateIgwCall (e11.log ++ _) = _
                        rw [hlp]
                        simp only [List.append_assoc]
                        rw [allocFirst_append_left_none _ _ _ hIgw]
                        simp [allocFirst, isCreateIgwCall, List.find?]
                      · show (allocList isCreateRtCall (e11.log ++ _))[0]? = _
                        rw [hlp]
                        simp only [List.append_assoc, allocList_append, hRt]
                        rw [allocList_none _ extp
                          (fun l hl => by simp [(hshapep l hl).2.2.2])]
                        simp [allocList, isCreateRtCall]
                      · show (allocList isCreateRtCall (e11.log ++ _))[1]? = _
                        rw [hlp]
                        simp only [List.append_assoc, allocList_append, hRt]
                        rw [allocList_none _ extp
                          (fun l hl => by simp [(hshapep l hl).2.2.2])]
                        simp [allocList, isCreateRtCall]
                      · show allocList isCreateSubnetCall (e11.log ++ _) = _
                        rw [hlp]
                        simp only [List.append_assoc, allocList_append, hSub,
                          hallocp]
                        rw [hsidsp]
                        simp [allocList, isCreateSubnetCall]
                    · next hcp =>
                      have hp : ws e11.sn = true := by simpa using hcp
                      rw [hp] at ho
                      subst ho
                      refine ⟨⟨[⟨Call.createInternetGateway, true, e.rn⟩,
                            ⟨Call.attachInternetGateway vpcId e.rn, true, e.rn + 1⟩,
                            ⟨Call.createRouteTable vpcId, true, e.rn + 1 + 1⟩,
                            ⟨Call.createTags (e.rn + 1 + 1) [⟨"Name", "Public-RT"⟩], true, e.rn + 1 + 1 + 1⟩,
                            ⟨Call.createRoute (e.rn + 1 + 1) e.rn, true, e.rn + 1 + 1 + 1 + 1⟩,
                            ⟨Call.createRouteTable vpcId, true, e.rn + 1 + 1 + 1 + 1 + 1⟩,
                            ⟨Call.createTags (e.rn + 1 + 1 + 1 + 1 + 1) [⟨"Name", "Private-RT"⟩], true, e.rn + 1 + 1 + 1 + 1 + 1 + 1⟩]
                          ++ extp ++ [⟨Call.putItem vpcId, true, e11.sn⟩],
                          ?_, ?_⟩, ?_, ?_⟩
                      · show e11.log ++ _ = _
                        rw [hlp]
                        simp
                      · intro l hl
                        rcases List.mem_append.mp hl with hl0 | hl0
                        · rcases List.mem_append.mp hl0 with hl1 | hl1
                          · fin_cases hl1 <;> rfl
                          · exact (hshapep l hl1).2.1
                        · fin_cases hl0 <;> rfl
                      · intro hres
                        exact absurd hres (by simp)
                      · intro item hitem
                        have hit : ⟨vpcId, region, sids, vtags.getD [],
                            some e.rn, some (e.rn + 1 + 1),
                            some (e.rn + 1 + 1 + 1 + 1 + 1)⟩ = item := by
                          simpa using hitem
                        subst hit
                        have hsn : sids = (List.range cidrs.length).map
                            (fun i => e.rn + 7 + 3 * i) := by
                          rw [hsidsp]
                          simp only [List.nil_append]
                        have h2e : e.rn + 1 + 1 = e.rn + 2 := by omega
                        have h5e : e.rn + 1 + 1 + 1 + 1 + 1 = e.rn + 5 := by
                          omega
                        refine ⟨rfl, cidrs, heqc, ?_, ?_⟩
                        · rw [hsn, h2e, h5e]
                        · show assocRts (e11.log ++ _) = _
                          rw [hlp]
                          simp only [List.append_assoc, assocRts_append,
                            hAssoc, hassocp]
                          have hrta : assocRts [(⟨Call.putItem vpcId, true,
                              e11.sn⟩ : LogEntry)] = [] := rfl
                          simp only [hrta]
                          simp only [assocRts, List.filterMap, List.append_nil,
                            List.nil_append]
                          refine List.map_congr_left ?_
                          intro i _
                          simp only [Nat.zero_add]

/-- A successfully parsed CIDR yields a well-formed network. -/
theorem ip_network_valid (c : CidrInput) (net : Ipv4Net)
    (h : ip_network c = some net) : net.Valid := by
  unfold ip_network at h
  split at h
  · next hc =>
    injection h with h
    subst h
    refine ⟨hc.2, ?_, ?_⟩
    · calc c.addr / 2 ^ (32 - c.prefixlen) * 2 ^ (32 - c.prefixlen)
          ≤ c.addr := Nat.div_mul_le_self _ _
        _ < 2 ^ 32 := hc.1
    · exact Nat.mul_mod_left _ _
  · cases h

/-- A successful partitioner run returns exactly `count.toNat` blocks. -/
theorem calculate_subnets_ok_length (net : Ipv4Net) (cnt : Int)
    (l : List Ipv4Net) (h32 : net.prefixlen ≤ 32)
    (h : calculate_subnets net cnt = Except.ok l) : l.length = cnt.toNat := by
  have hcap : cnt ≤ ((2 ^ (32 - net.prefixlen) : Nat) : Int) := by
    by_contra hc
    obtain ⟨msg, hmsg⟩ := calculate_subnets_error net cnt h32 (by omega)
    rw [hmsg] at h
    cases h
  obtain ⟨p, hmin, hp32, hcalc⟩ := calculate_subnets_ok_spec net cnt h32 hcap
  rw [hcalc] at h
  injection h with h
  rw [← h]
  simp

/-- Master characterization of `create_vpc`: on any failure the rollback
executor is invoked with exactly the identifiers allocated so far — the VPC,
gateway, route-table and subnet ids read off the final call log — and no
record is persisted; on success the persisted item is the returned item and
its fields are the allocated ids, the store gains exactly that item, and the
association calls bind partition index `i` to the public route table exactly
when `i` is below the effective public count. -/
theorem create_vpc_spec (wr ws : Oracle) (store : Store) (region : String)
    (vpcCidr : CidrInput) (cnt : Int) (pub : Option Int)
    (vtags stags : Option (List Tag)) :
    ∀ o : CreateOutcome,
      create_vpc wr ws store region vpcCidr cnt pub vtags stags = o →
      (o.result = none →
        o.rollback = some ⟨allocFirst isCreateVpcCall o.eff.log,
          allocFirst isCreateIgwCall o.eff.log,
          [(allocList isCreateRtCall o.eff.log)[0]?,
            (allocList isCreateRtCall o.eff.log)[1]?],
          allocList isCreateSubnetCall o.eff.log⟩ ∧
        o.store = store) ∧
      (∀ item, o.result = some item →
        o.store = putItemStore store item ∧
        ∃ net cidrs gw rp rpv, ip_network vpcCidr = some net ∧
          calculate_subnets net cnt = Except.ok cidrs ∧
          rp ≠ rpv ∧
          item = ⟨0, region,
            (List.range cidrs.length).map (fun i => rpv + 2 + 3 * i),
            vtags.getD [], some gw, some rp, some rpv⟩ ∧
          assocRts o.eff.log = (List.range cidrs.length).map
            (fun i : Nat => if (i : Int) < effectivePublicCount pub cnt
              then rp else rpv)) := by
  intro o ho
  unfold create_vpc at ho
  simp only [att] at ho
  split at ho
  · next hnet =>
    subst ho
    obtain ⟨hres, hst, hrb, hvpc, higw, hrt, hsub, _⟩ :=
      failOut_spec wr store ⟨0, 0, []⟩ none none none none []
    refine ⟨fun _ => ?_, fun item hitem => ?_⟩
    · refine ⟨?_, hst⟩
      rw [hrb, hvpc, higw, hrt, hsub]
      rfl
    · rw [hres] at hitem
      cases hitem
  · next net hnet =>
    split at ho
    · next hc =>
      have g1 : wr 0 = false := by simpa using hc
      rw [g1] at ho
      subst ho
      obtain ⟨hres, hst, hrb, hvpc, higw, hrt, hsub, _⟩ :=
        failOut_spec wr store ⟨0 + 1, 0,
          [] ++ [⟨Call.createVpc net, false, 0⟩]⟩ none none none none []
      refine ⟨fun _ => ?_, fun item hitem => ?_⟩
      · refine ⟨?_, hst⟩
        rw [hrb, hvpc, higw, hrt, hsub]
        simp [allocFirst, allocList, List.find?, isCreateVpcCall, isCreateIgwCall, isCreateRtCall, isCreateSubnetCall]
      · rw [hres] at hitem
        cases hitem
    · next hc =>
      have g1 : wr 0 = true := by simpa using hc
      rw [g1] at ho
      split at ho
      · next hc2 =>
        have g2 : wr (0 + 1) = false := by simpa using hc2
        rw [g2] at ho
        subst ho
        obtain ⟨hres, hst, hrb, hvpc, higw, hrt, hsub, _⟩ :=
          failOut_spec wr store ⟨0 + 1 + 1, 0,
            [] ++ [⟨Call.createVpc net, true, 0⟩] ++
              [⟨Call.modifyVpcAttribute 0, false, 0 + 1⟩]⟩
            (some 0) none none none []
        refine ⟨fun _ => ?_, fun item hitem => ?_⟩
        · refine ⟨?_, hst⟩
          rw [hrb, hvpc, higw, hrt, hsub]
          simp [allocFirst, allocList, List.find?, isCreateVpcCall, isCreateIgwCall, isCreateRtCall, isCreateSubnetCall]
        · rw [hres] at hitem
          cases hitem
      · next hc2 =>
        have g2 : wr (0 + 1) = true := by simpa using hc2
        rw [g2] at ho
        split at ho
        · next hc3 =>
          split at ho
          · next hc4 =>
            have g3 : wr (0 + 1 + 1) = false := by simpa using hc4
            rw [g3] at ho
            subst ho
            obtain ⟨hres, hst, hrb, hvpc, higw, hrt, hsub, _⟩ :=
              failOut_spec wr store ⟨0 + 1 + 1 + 1, 0,
                [] ++ [⟨Call.createVpc net, true, 0⟩] ++
                  [⟨Call.modifyVpcAttribute 0, true, 0 + 1⟩] ++
                  [⟨Call.createTags 0 (vtags.getD []), false, 0 + 1 + 1⟩]⟩
                (some 0) none none none []
            refine ⟨fun _ => ?_, fun item hitem => ?_⟩
            · refine ⟨?_, hst⟩
              rw [hrb, hvpc, higw, hrt, hsub]
              simp [allocFirst, allocList, List.find?, isCreateVpcCall,
                isCreateIgwCall, isCreateRtCall, isCreateSubnetCall]
            · rw [hres] at hitem
              cases hitem
          · next hc4 =>
            have g3 : wr (0 + 1 + 1) = true := by simpa using hc4
            rw [g3] at ho
            obtain ⟨⟨ext, hlog, hnovpc⟩, hfail, hsucc⟩ :=
              create_vpc_tail_spec wr ws store region net cnt pub vtags stags
                0 _
                (by simp [allocFirst, List.find?, isCreateIgwCall])
                (by simp [allocList, isCreateRtCall])
                (by simp [allocList, isCreateSubnetCall])
                (by simp [assocRts]) o ho
            have hv : allocFirst isCreateVpcCall o.eff.log = some 0 := by
              rw [hlog]
              rw [allocFirst_append_none _ _ _
                (fun l hl => by simp [hnovpc l hl])]
              simp [allocFirst, List.find?, isCreateVpcCall]
            refine ⟨fun hres => ?_, fun item hitem => ?_⟩
            · obtain ⟨hrb, hst⟩ := hfail hres
              rw [hrb, hv]
              exact ⟨rfl, hst⟩
            · obtain ⟨hst, cidrs, hcalc, hitemeq, hassoc⟩ := hsucc item hitem
              exact ⟨hst, net, cidrs, 3, 5, 8, hnet, hcalc, by decide,
                hitemeq, hassoc⟩
        · next hc3 =>
          split at ho
          · next hc4 =>
            exact absurd hc4 (by simp)
          · next hc4 =>
            obtain ⟨⟨ext, hlog, hnovpc⟩, hfail, hsucc⟩ :=
              create_vpc_tail_spec wr ws store region net cnt pub vtags stags
                0 _
                (by simp [allocFirst, List.find?, isCreateIgwCall])
                (by simp [allocList, isCreateRtCall])
                (by simp [allocList, isCreateSubnetCall])
                (by simp [assocRts]) o ho
            have hv : allocFirst isCreateVpcCall o.eff.log = some 0 := by
              rw [hlog]
              rw [allocFirst_append_none _ _ _
                (fun l hl => by simp [hnovpc l hl])]
              simp [allocFirst, List.find?, isCreateVpcCall]
            refine ⟨fun hres => ?_, fun item hitem => ?_⟩
            · obtain ⟨hrb, hst⟩ := hfail hres
              rw [hrb, hv]
              exact ⟨rfl, hst⟩
            · obtain ⟨hst, cidrs, hcalc, hitemeq, hassoc⟩ := hsucc item hitem
              exact ⟨hst, net, cidrs, 2, 4, 7, hnet, hcalc, by decide,
                hitemeq, hassoc⟩

/-! ### Teardown and update lemmas -/

/-- The subnet loop of `delete_vpc` appends exactly one delete attempt per
subnet id, in order. -/
theorem delSubnetsSeq_callmap (w : Oracle) (l : List Nat) :
    ∀ e : Eff, (delSubnetsSeq w e l).log.map LogEntry.call =
      e.log.map LogEntry.call ++ l.map Call.deleteSubnet := by
  induction l with
  | nil => intro e; simp [delSubnetsSeq]
  | cons s rest ih => intro e; simp [delSubnetsSeq, ih, att]

/-- The disassociation loop appends one disassociation attempt per non-main
association, in order. -/
theorem disassocSeq_callmap (w : Oracle) (l : List Assoc) :
    ∀ e : Eff, (disassocSeq w e l).log.map LogEntry.call =
      e.log.map LogEntry.call ++ (l.filter (fun a => !a.main)).map
        (fun a => Call.disassociateRouteTable a.assocId) := by
  induction l with
  | nil => intro e; simp [disassocSeq]
  | cons a rest ih =>
    intro e
    cases ha : a.main
    · simp [disassocSeq, ha, ih, att]
    · simp [disassocSeq, ha, ih]

/-- The route-table block of `delete_vpc` appends exactly the calls
`rtCleanupCalls` prescribes. -/
theorem rtCleanup_callmap (w : Oracle) (l : List RtInfo) :
    ∀ e : Eff, (rtCleanup w e l).log.map LogEntry.call =
      e.log.map LogEntry.call ++ rtCleanupCalls l := by
  induction l with
  | nil => intro e; simp [rtCleanup, rtCleanupCalls]
  | cons rt rest ih =>
    intro e
    cases hany : rt.assocs.any (fun a => a.main)
    · simp [rtCleanup, rtCleanupCalls, hany, ih, att, disassocSeq_callmap]
    · simp [rtCleanup, rtCleanupCalls, hany, ih, disassocSeq_callmap]

/-- The gateway block of `delete_vpc` appends exactly the calls
`igwCleanupCalls` prescribes. -/
theorem igwCleanup_callmap (w : Oracle) (v : Nat) (l : List Nat) :
    ∀ e : Eff, (igwCleanup w v e l).log.map LogEntry.call =
      e.log.map LogEntry.call ++ igwCleanupCalls v l := by
  induction l with
  | nil => intro e; simp [igwCleanup, igwCleanupCalls]
  | cons g rest ih => intro e; simp [igwCleanup, igwCleanupCalls, ih, att]

/-- The gateway block never issues a route-table delete. -/
theorem deleteRt_not_mem_igwCleanupCalls (v r : Nat) (gs : List Nat) :
    Call.deleteRouteTable r ∉ igwCleanupCalls v gs := by
  induction gs with
  | nil => simp [igwCleanupCalls]
  | cons g rest ih => simp [igwCleanupCalls, ih]

/-- A route-table delete appears among the route-table block's calls only for
a described table with no main association. -/
theorem rtCleanupCalls_deleteRt_mem (l : List RtInfo) (r : Nat)
    (h : Call.deleteRouteTable r ∈ rtCleanupCalls l) :
    ∃ rt, rt ∈ l ∧ rt.rtId = r ∧
      rt.assocs.any (fun a => a.main) = false := by
  induction l with
  | nil => simp [rtCleanupCalls] at h
  | cons rt rest ih =>
    simp only [rtCleanupCalls, List.mem_append] at h
    rcases h with (h | h) | h
    · simp at h
    · cases hany : rt.assocs.any (fun a => a.main)
      · rw [hany] at h
        simp at h
        exact ⟨rt, List.mem_cons_self _ _, h.symm, hany⟩
      · rw [hany] at h
        simp at h
    · obtain ⟨rt', hmem, hid, hmain⟩ := ih h
      exact ⟨rt', List.mem_cons_of_mem _ hmem, hid, hmain⟩

/-- Mapping the tags replacement over a store commutes with looking up the
keyed item: the lookup returns the item with its tags replaced. -/
theorem find?_tagsMap (v : Nat) (ts : List Tag) (it : Item) :
    ∀ s : Store, s.find? (fun j => j.vpcId == v) = some it →
      (s.map (fun j => if j.vpcId == v then { j with tags := ts } else j)).find?
        (fun j => j.vpcId == v) = some { it with tags := ts } := by
  intro s
  induction s with
  | nil => intro h; cases h
  | cons a as ih =>
    intro h
    cases ha : a.vpcId == v
    · rw [List.find?_cons_of_neg _ (by simp [ha])] at h
      simp only [List.map_cons]
      rw [List.find?_cons_of_neg _ (by simp [ha])]
      exact ih h
    · rw [List.find?_cons_of_pos _ (by simp [ha])] at h
      injection h with h
      subst h
      simp only [List.map_cons, ha, if_true]
      rw [List.find?_cons_of_pos _ (by simp [ha])]

/-- `update_item` with `SET Tags = :val` keyed on a present item replaces that
item's tags field wholesale and keeps everything else. -/
theorem getItem_updateTagsStore (s : Store) (v : Nat) (ts : List Tag)
    (it : Item) (h : getItem s v = some it) :
    getItem (updateTagsStore s v ts) v = some { it with tags := ts } := by
  unfold getItem at h
  unfold updateTagsStore
  rw [h]
  simp only [Option.isSome_some]
  rw [if_pos trivial]
  unfold getItem
  exact find?_tagsMap v ts it s h

/-! ### Claim C8 -/

/-- C8 updateTags contract: when the new tags are empty or absent, `update_vpc`
issues no call, leaves the store unchanged and returns the identifier with the
(falsy) tags; otherwise it fails — raising out of its handler, surfaced by the
API layer as an internal error, never a silent no-op — exactly when the remote
tagging call or the store write fails (a nonexistent remote resource being one
way the remote call fails), and when both succeed it returns the identifier
and tags, overwrites the store via the tags-update expression, and the stored
record's tags field is replaced wholesale. -/
theorem update_tags_contract (wr ws : Oracle) (store : Store) (vpcId : Nat)
    (tags : Option (List Tag)) :
    ∀ o : UpdateOutcome, update_vpc wr ws store vpcId tags = o →
      (truthyList tags = false →
        o.result = some (vpcId, tags) ∧ o.store = store ∧ o.eff.log = []) ∧
      (truthyList tags = true →
        (o.result = none ↔ (wr 0 = false ∨ ws 0 = false)) ∧
        (o.result = none → o.store = store) ∧
        (wr 0 = true → ws 0 = true →
          o.result = some (vpcId, tags) ∧
          o.store = updateTagsStore store vpcId (tags.getD []) ∧
          ∀ it, getItem store vpcId = some it →
            getItem o.store vpcId = some { it with tags := tags.getD [] })) := by
  intro o ho
  unfold update_vpc at ho
  simp only [att, sAtt] at ho
  split at ho
  · next hc =>
    split at ho
    · next hw =>
      have hw' : wr 0 = false := by simpa using hw
      subst ho
      refine ⟨fun hf => (by rw [hf] at hc; cases hc), fun _ => ⟨?_,
        fun _ => rfl, fun hwt _ => (by rw [hwt] at hw'; cases hw')⟩⟩
      exact ⟨fun _ => Or.inl hw', fun _ => rfl⟩
    · next hw =>
      have hw' : wr 0 = true := by simpa using hw
      split at ho
      · next hs =>
        have hs' : ws 0 = false := by simpa using hs
        subst ho
        refine ⟨fun hf => (by rw [hf] at hc; cases hc), fun _ => ⟨?_,
          fun _ => rfl, fun _ hst => (by rw [hst] at hs'; cases hs')⟩⟩
        exact ⟨fun _ => Or.inr hs', fun _ => rfl⟩
      · next hs =>
        have hs' : ws 0 = true := by simpa using hs
        subst ho
        refine ⟨fun hf => (by rw [hf] at hc; cases hc), fun _ => ⟨?_, ?_, ?_⟩⟩
        · refine ⟨fun hn => (by cases hn), fun hor => ?_⟩
          rcases hor with hbad | hbad
          · rw [hbad] at hw'; cases hw'
          · rw [hbad] at hs'; cases hs'
        · intro hn; cases hn
        · intro _ _
          exact ⟨rfl, rfl, fun it hit =>
            getItem_updateTagsStore store vpcId (tags.getD []) it hit⟩
  · next hc =>
    have hc' : truthyList tags = false := by simpa using hc
    subst ho
    exact ⟨fun _ => ⟨rfl, rfl, rfl⟩, fun ht => (by rw [ht] at hc'; cases hc')⟩

/-- C8 witness: updating VPC 7 with one nonempty tag list against reliable
remote and store succeeds, replaces the store via the tags-update expression,
and the stored record's tags are replaced wholesale. -/
theorem update_tags_contract_witness :
    (update_vpc (fun _ => true) (fun _ => true) upStore 7
      (some [⟨"env", "prod"⟩])).result = some (7, some [⟨"env", "prod"⟩]) ∧
    (update_vpc (fun _ => true) (fun _ => true) upStore 7
      (some [⟨"env", "prod"⟩])).store =
      updateTagsStore upStore 7 [⟨"env", "prod"⟩] ∧
    getItem (update_vpc (fun _ => true) (fun _ => true) upStore 7
      (some [⟨"env", "prod"⟩])).store 7 =
      some { upItem with tags := [⟨"env", "prod"⟩] } := by
  obtain ⟨-, h⟩ := update_tags_contract (fun _ => true) (fun _ => true) upStore
    7 (some [⟨"env", "prod"⟩]) _ rfl
  obtain ⟨-, -, h3⟩ := h rfl
  obtain ⟨h1, h2, h4⟩ := h3 rfl rfl
  exact ⟨h1, h2, h4 upItem rfl⟩

/-! ### Claim C7 -/

/-- Under distinct described route-table ids, a delete of a main-associated
table never appears among the route-table block's calls. -/
theorem rt_safety_aux (world : World) (v : Nat)
    (hnodup : ((world.rtsOf v).map RtInfo.rtId).Nodup)
    (rt : RtInfo) (hrt : rt ∈ world.rtsOf v)
    (hmain : rt.assocs.any (fun a => a.main) = true)
    (hmem : Call.deleteRouteTable rt.rtId ∈ rtCleanupCalls (world.rtsOf v)) :
    False := by
  obtain ⟨rt', hmem', hid, hmain'⟩ := rtCleanupCalls_deleteRt_mem _ _ hmem
  have heq : rt' = rt := List.inj_on_of_nodup_map hnodup hmem' hrt hid
  rw [heq, hmain] at hmain'
  cases hmain'

/-- C7 teardown contract: with a reliable store, `delete_vpc` fails (returns
the not-found marker) exactly when no record exists for the id; when a record
exists it removes the record and returns the success confirmation whatever the
remote oracle answers — every remote sub-step is best-effort — and it never
issues a delete for a described route table that has a main association
(described tables carrying distinct ids). -/
theorem teardown_contract (wr : Oracle) (world : World) (store : Store)
    (vpcId : Nat)
    (hnodup : ((world.rtsOf vpcId).map RtInfo.rtId).Nodup) :
    ∀ o : DeleteOutcome,
      delete_vpc wr (fun _ => true) world store vpcId = o →
      (o.result = none ↔ getItem store vpcId = none) ∧
      (∀ record, getItem store vpcId = some record →
        o.result = some "VPC deleted successfully" ∧
        o.store = deleteItemStore store vpcId ∧
        ∀ rt ∈ world.rtsOf vpcId, rt.assocs.any (fun a => a.main) = true →
          Call.deleteRouteTable rt.rtId ∉ o.eff.log.map LogEntry.call) := by
  intro o ho
  unfold delete_vpc at ho
  cases hget : getItem store vpcId with
  | none =>
    rw [hget] at ho
    subst ho
    refine ⟨by simp, fun record hrec => ?_⟩
    cases hrec
  | some record =>
    rw [hget] at ho
    simp only [att, sAtt, reduceIte] at ho
    split at ho
    · split at ho
      · subst ho
        refine ⟨by simp, fun record' hrec => ⟨rfl, by simp, ?_⟩⟩
        intro rt hrt hmain hmem
        simp only [List.map_append, igwCleanup_callmap, rtCleanup_callmap,
          delSubnetsSeq_callmap] at hmem
        simp at hmem
        rcases hmem with hmem | hmem
        · exact rt_safety_aux world vpcId hnodup rt hrt hmain hmem
        · exact deleteRt_not_mem_igwCleanupCalls vpcId rt.rtId _ hmem
      · subst ho
        refine ⟨by simp, fun record' hrec => ⟨rfl, by simp, ?_⟩⟩
        intro rt hrt hmain hmem
        simp only [List.map_append, rtCleanup_callmap,
          delSubnetsSeq_callmap] at hmem
        simp at hmem
        exact rt_safety_aux world vpcId hnodup rt hrt hmain hmem
    · split at ho
      · subst ho
        refine ⟨by simp, fun record' hrec => ⟨rfl, by simp, ?_⟩⟩
        intro rt hrt hmain hmem
        simp only [List.map_append, igwCleanup_callmap,
          delSubnetsSeq_callmap] at hmem
        simp at hmem
        exact deleteRt_not_mem_igwCleanupCalls vpcId rt.rtId _ hmem
      · subst ho
        refine ⟨by simp, fun record' hrec => ⟨rfl, by simp, ?_⟩⟩
        intro rt hrt hmain hmem
        simp only [List.map_append, delSubnetsSeq_callmap] at hmem
        simp at hmem

/-- C7 witness: tearing down VPC 1 against a remote whose very first call (the
subnet delete) fails still returns the confirmation, removes the record from
the store, and never deletes route table 3, which carries the main
association. -/
theorem teardown_contract_witness :
    (delete_vpc (fun n => n != 0) (fun _ => true) tdWorld tdStore 1).result =
      some "VPC deleted successfully" ∧
    (delete_vpc (fun n => n != 0) (fun _ => true) tdWorld tdStore 1).store =
      deleteItemStore tdStore 1 ∧
    Call.deleteRouteTable 3 ∉
      (delete_vpc (fun n => n != 0) (fun _ => true) tdWorld
        tdStore 1).eff.log.map LogEntry.call := by
  obtain ⟨-, h⟩ := teardown_contract (fun n => n != 0) tdWorld tdStore 1
    (by decide) _ rfl
  obtain ⟨h1, h2, h3⟩ := h tdRecord rfl
  exact ⟨h1, h2, h3 ⟨3, [⟨true, 100⟩]⟩ (by decide) (by decide)⟩

/-! ### Claims C1, C4, C6, C9 -/

/-- C1 provision atomicity: whenever `create_vpc` signals failure (the caught
exception the `except` handler swallows), the Rollback Executor was invoked
with exactly the identifiers allocated so far — the VPC id, the gateway id if
created, the two route-table slots as allocated, and every subnet id created —
all read off the run's call log, and no Environment Record was persisted. -/
theorem provision_atomicity (wr ws : Oracle) (store : Store) (region : String)
    (vpcCidr : CidrInput) (cnt : Int) (pub : Option Int)
    (vtags stags : Option (List Tag)) :
    ∀ o : CreateOutcome,
      create_vpc wr ws store region vpcCidr cnt pub vtags stags = o →
      o.result = none →
      o.rollback = some ⟨allocFirst isCreateVpcCall o.eff.log,
        allocFirst isCreateIgwCall o.eff.log,
        [(allocList isCreateRtCall o.eff.log)[0]?,
          (allocList isCreateRtCall o.eff.log)[1]?],
        allocList isCreateSubnetCall o.eff.log⟩ ∧
      o.store = store :=
  fun o ho hres =>
    (create_vpc_spec wr ws store region vpcCidr cnt pub vtags stags o ho).1 hres

/-- C1 witness: a run whose sixth remote call (tagging the public route table)
fails rolls back with exactly the allocated identifiers and leaves the store
empty. -/
theorem provision_atomicity_witness :
    (create_vpc (fun n => n != 5) (fun _ => true) [] "r" ⟨167772160, 24⟩ 2
      none none none).rollback =
      some ⟨allocFirst isCreateVpcCall
          (create_vpc (fun n => n != 5) (fun _ => true) [] "r" ⟨167772160, 24⟩
            2 none none none).eff.log,
        allocFirst isCreateIgwCall
          (create_vpc (fun n => n != 5) (fun _ => true) [] "r" ⟨167772160, 24⟩
            2 none none none).eff.log,
        [(allocList isCreateRtCall
            (create_vpc (fun n => n != 5) (fun _ => true) [] "r"
              ⟨167772160, 24⟩ 2 none none none).eff.log)[0]?,
          (allocList isCreateRtCall
            (create_vpc (fun n => n != 5) (fun _ => true) [] "r"
              ⟨167772160, 24⟩ 2 none none none).eff.log)[1]?],
        allocList isCreateSubnetCall
          (create_vpc (fun n => n != 5) (fun _ => true) [] "r" ⟨167772160, 24⟩
            2 none none none).eff.log⟩ ∧
    (create_vpc (fun n => n != 5) (fun _ => true) [] "r" ⟨167772160, 24⟩ 2
      none none none).store = ([] : Store) :=
  provision_atomicity (fun n => n != 5) (fun _ => true) [] "r"
    ⟨167772160, 24⟩ 2 none none none _ rfl rfl

/-- C4 counterexample: errors do not propagate untouched.  A capacity error
(base `10.0.0.0/30`, eight subnets requested) is swallowed into the same
generic `None` result that a malformed CIDR produces, and it is raised only
after remote calls were made — the log of the failing run is nonempty, so a
capacity error does have remote side effects. -/
theorem error_propagation_cex :
    (create_vpc (fun _ => true) (fun _ => true) [] "r" ⟨167772160, 30⟩ 8
      none none none).result = none ∧
    (create_vpc (fun _ => true) (fun _ => true) [] "r" ⟨167772160, 30⟩ 8
      none none none).eff.log ≠ [] ∧
    (create_vpc (fun _ => true) (fun _ => true) [] "r" ⟨167772160, 30⟩ 8
      none none none).result =
      (create_vpc (fun _ => true) (fun _ => true) [] "r" ⟨167772160, 40⟩ 8
        none none none).result :=
  ⟨rfl, by decide, rfl⟩

/-- C4 amended: a malformed base CIDR still fails before any call is made (the
log stays empty and the store untouched), but the failure is the generic
`None` of the broad `except` handler, not a propagated `ValidationError`; a
capacity error likewise yields the generic `None` with the store untouched,
after the VPC, gateway and route tables were already created remotely. -/
theorem error_propagation_amended (wr ws : Oracle) (store : Store)
    (region : String) (vpcCidr : CidrInput) (cnt : Int) (pub : Option Int)
    (vtags stags : Option (List Tag)) :
    ∀ o : CreateOutcome,
      create_vpc wr ws store region vpcCidr cnt pub vtags stags = o →
      (ip_network vpcCidr = none →
        o.result = none ∧ o.eff.log = [] ∧ o.store = store) ∧
      (∀ net msg, ip_network vpcCidr = some net →
        calculate_subnets net cnt = Except.error msg →
        o.result = none ∧ o.store = store) := by
  intro o ho
  obtain ⟨h1, h2⟩ :=
    create_vpc_spec wr ws store region vpcCidr cnt pub vtags stags o ho
  constructor
  · intro hparse
    unfold create_vpc at ho
    rw [hparse] at ho
    subst ho
    exact ⟨rfl, rfl, rfl⟩
  · intro net msg hparse hcalc
    cases hres : o.result with
    | none => exact ⟨rfl, (h1 hres).2⟩
    | some item =>
      obtain ⟨-, net', cidrs, gw, rp, rpv, hip, hcalc', -, -, -⟩ :=
        h2 item hres
      rw [hparse] at hip
      injection hip with hip
      rw [← hip] at hcalc'
      rw [hcalc] at hcalc'
      cases hcalc'

/-- C4 amended witness: the malformed CIDR `10.0.0.0/40` produces the generic
failure with an empty log and untouched store, and the capacity-error run on
`10.0.0.0/30` with eight subnets produces the generic failure with untouched
store. -/
theorem error_propagation_amended_witness :
    ((create_vpc (fun _ => true) (fun _ => true) [] "r" ⟨167772160, 40⟩ 2
        none none none).result = none ∧
      (create_vpc (fun _ => true) (fun _ => true) [] "r" ⟨167772160, 40⟩ 2
        none none none).eff.log = [] ∧
      (create_vpc (fun _ => true) (fun _ => true) [] "r" ⟨167772160, 40⟩ 2
        none none none).store = ([] : Store)) ∧
    ((create_vpc (fun _ => true) (fun _ => true) [] "r" ⟨167772160, 30⟩ 8
        none none none).result = none ∧
      (create_vpc (fun _ => true) (fun _ => true) [] "r" ⟨167772160, 30⟩ 8
        none none none).store = ([] : Store)) :=
  ⟨(error_propagation_amended (fun _ => true) (fun _ => true) [] "r"
      ⟨167772160, 40⟩ 2 none none none _ rfl).1 rfl,
    (error_propagation_amended (fun _ => true) (fun _ => true) [] "r"
      ⟨167772160, 30⟩ 8 none none none _ rfl).2 ⟨167772160, 30⟩
      "Cannot create subnets from the given cidr" rfl rfl⟩

/-- C6 public-subnet count and association: every successful provisioning run
returns a record whose public and private route tables are distinct, and the
run's association calls bind the subnet at partition index `i` to the public
table exactly when `i < min(publicSubnets ?? totalSubnets // 2, totalSubnets)`
(Python floor division), else to the private one. -/
theorem public_count_association (wr ws : Oracle) (store : Store)
    (region : String) (vpcCidr : CidrInput) (cnt : Int) (pub : Option Int)
    (vtags stags : Option (List Tag)) :
    ∀ o : CreateOutcome,
      create_vpc wr ws store region vpcCidr cnt pub vtags stags = o →
      ∀ item, o.result = some item →
        ∃ rp rpv, rp ≠ rpv ∧
          item.rtPublic = some rp ∧ item.rtPrivate = some rpv ∧
          assocRts o.eff.log = (List.range item.subnetIds.length).map
            (fun i : Nat =>
              if (i : Int) < min (pub.getD (Int.fdiv cnt 2)) cnt then rp
              else rpv) := by
  intro o ho item hitem
  obtain ⟨-, h2⟩ :=
    create_vpc_spec wr ws store region vpcCidr cnt pub vtags stags o ho
  obtain ⟨-, net, cidrs, gw, rp, rpv, -, -, hne, hitemeq, hassoc⟩ :=
    h2 item hitem
  refine ⟨rp, rpv, hne, ?_, ?_, ?_⟩
  · rw [hitemeq]
  · rw [hitemeq]
  · rw [hitemeq]
    simpa [effectivePublicCount] using hassoc

/-- C6 witness: two subnets with no explicit public count give effective
public count one — the record's route tables are 4 (public) and 7 (private)
and the association calls bind index 0 to 4 and index 1 to 7. -/
theorem public_count_association_witness :
    ∃ rp rpv, rp ≠ rpv ∧
      (⟨0, "r", [9, 12], [], some 2, some 4, some 7⟩ : Item).rtPublic =
        some rp ∧
      (⟨0, "r", [9, 12], [], some 2, some 4, some 7⟩ : Item).rtPrivate =
        some rpv ∧
      assocRts (create_vpc (fun _ => true) (fun _ => true) [] "r"
        ⟨167772160, 24⟩ 2 none none none).eff.log =
        (List.range (⟨0, "r", [9, 12], [], some 2, some 4, some 7⟩ :
          Item).subnetIds.length).map
          (fun i : Nat =>
            if (i : Int) < min ((none : Option Int).getD (Int.fdiv 2 2)) 2
            then rp else rpv) :=
  public_count_association (fun _ => true) (fun _ => true) [] "r"
    ⟨167772160, 24⟩ 2 none none none _ rfl
    ⟨0, "r", [9, 12], [], some 2, some 4, some 7⟩ rfl

/-- C9 counterexample: a provisioning run with a negative requested subnet
count persists a record whose `subnetIds` length (zero) differs from the
requested count, so the persisted-record invariant as stated fails. -/
theorem persisted_record_cex :
    ∃ item,
      (create_vpc (fun _ => true) (fun _ => true) [] "r" ⟨167772160, 24⟩ (-1)
        none none none).result = some item ∧
      ¬ ((item.subnetIds.length : Int) = (-1)) :=
  ⟨⟨0, "r", [], [], some 2, some 4, some 7⟩, rfl, by decide⟩

/-- C9 amended: every record `create_vpc` persists has a `subnetIds` sequence
of length `max 0 count` — the requested count clamped at zero, since a
negative count slices to an empty partition yet still provisions — and both
route-table fields (and the gateway field) populated; no partially built
record is ever written. -/
theorem persisted_record_amended (wr ws : Oracle) (store : Store)
    (region : String) (vpcCidr : CidrInput) (cnt : Int) (pub : Option Int)
    (vtags stags : Option (List Tag)) :
    ∀ o : CreateOutcome,
      create_vpc wr ws store region vpcCidr cnt pub vtags stags = o →
      ∀ item, o.result = some item →
        item.subnetIds.length = cnt.toNat ∧
        item.igw.isSome = true ∧
        item.rtPublic.isSome = true ∧
        item.rtPrivate.isSome = true := by
  intro o ho item hitem
  obtain ⟨-, h2⟩ :=
    create_vpc_spec wr ws store region vpcCidr cnt pub vtags stags o ho
  obtain ⟨-, net, cidrs, gw, rp, rpv, hip, hcalc, -, hitemeq, -⟩ :=
    h2 item hitem
  have hlen : cidrs.length = cnt.toNat :=
    calculate_subnets_ok_length net cnt cidrs (ip_network_valid vpcCidr net
      hip).1 hcalc
  rw [hitemeq]
  simp [hlen]

/-- C9 amended witness: the negative-count run persists a record with zero
subnets, both route tables and the gateway populated. -/
theorem persisted_record_amended_witness :
    (⟨0, "r", [], [], some 2, some 4, some 7⟩ : Item).subnetIds.length =
      Int.toNat (-1) ∧
    (⟨0, "r", [], [], some 2, some 4, some 7⟩ : Item).igw.isSome = true ∧
    (⟨0, "r", [], [], some 2, some 4, some 7⟩ : Item).rtPublic.isSome = true ∧
    (⟨0, "r", [], [], some 2, some 4, some 7⟩ : Item).rtPrivate.isSome =
      true :=
  persisted_record_amended (fun _ => true) (fun _ => true) [] "r"
    ⟨167772160, 24⟩ (-1) none none none _ rfl
    ⟨0, "r", [], [], some 2, some 4, some 7⟩ rfl

end VpcOps
